import Mathlib

/-!
The program eob: rotating onion service, notification dispatcher and cipher tool

A shallow embedding of `server/main.go`, `server/tor_backand.go` and `aes/aes.go`.

Conventions of the embedding

* Go byte slices are `List Byte` with `Byte = Fin 256`; Go text that is only
  concatenated, split or trimmed is a Lean `String`.
* Go's `error` results are `Option String` (`none` is `nil`) and `(T, error)`
  results are `Except String T`.
* Everything the program obtains from outside the repository (the Tor
  controller, the SMTP relay, the file system, the random source, the clock)
  is an explicit environment argument.  Library primitives whose internals
  the repository never inspects (the AES block function, Argon2id, time
  formatting) are parameters.
* Instants and durations are integers (nanoseconds); the clock of a run is
  the `now` field of `World` and only moves forward.  The 64-bit range of
  `time.Duration` (about 292 years) is not modelled.
* The goroutine that runs `server.Serve` appears as the step `serve`; calls
  to the outside are taken to return, after a time the environment chooses.
-/

namespace Eob

/-! ## Bytes and text -/

abbrev Byte := Fin 256

/-- Truncating conversion `byte(n)`. -/
def byteOfNat (n : Nat) : Byte := ⟨n % 256, Nat.mod_lt _ (by decide)⟩

/-- Bytewise exclusive or. -/
def xorByte (a b : Byte) : Byte :=
  ⟨a.val ^^^ b.val, Nat.xor_lt_two_pow (n := 8) a.isLt b.isLt⟩

/-- Exclusive or of a buffer with a pad; the result is as long as the shorter one
(`subtle.XORBytes`). -/
def xorBytes (data pad : List Byte) : List Byte := List.zipWith xorByte data pad

/-- Conversion `[]byte(s)` of a text: its UTF-8 encoding. -/
def bytesOfString (s : String) : List Byte :=
  s.data.flatMap fun c => (String.utf8EncodeChar c).map fun u => u.val

/-- Predicate `unicode.IsSpace`. -/
def isSpace (c : Char) : Bool :=
  let n := c.toNat
  (9 ≤ n && n ≤ 13) || n == 32 || n == 0x85 || n == 0xA0 || n == 0x1680 ||
  (0x2000 ≤ n && n ≤ 0x200A) || n == 0x2028 || n == 0x2029 || n == 0x202F ||
  n == 0x205F || n == 0x3000

/-- Function `strings.TrimSpace` on the characters of a text. -/
def trimSpaceChars (l : List Char) : List Char :=
  ((l.dropWhile isSpace).reverse.dropWhile isSpace).reverse

/-- Function `strings.TrimSpace`. -/
def trimSpace (s : String) : String := ⟨trimSpaceChars s.data⟩

/-- Pieces of a character list between newlines; the piece being read is `cur`. -/
def splitNewlineAux : List Char → List Char → List (List Char)
  | [], cur => [cur.reverse]
  | c :: rest, cur =>
    if c = Char.ofNat 10 then cur.reverse :: splitNewlineAux rest []
    else splitNewlineAux rest (c :: cur)

/-- Call `strings.Split(s, "\n")`. -/
def splitNewline (s : String) : List String :=
  (splitNewlineAux s.data []).map fun l => ⟨l⟩

/-! ## encoding/hex -/

def hexAlphabet : List Char := "0123456789abcdef".data

def hexDigit (n : Nat) : Char := hexAlphabet.getD n (Char.ofNat 48)

/-- Entry of `reverseHexTable`: both cases of the letters are accepted. -/
def hexVal (c : Char) : Option Nat :=
  let n := c.toNat
  if 48 ≤ n ∧ n ≤ 57 then some (n - 48)
  else if 97 ≤ n ∧ n ≤ 102 then some (n - 87)
  else if 65 ≤ n ∧ n ≤ 70 then some (n - 55)
  else none

def hexEncodeChars : List Byte → List Char
  | [] => []
  | b :: rest => hexDigit (b.val / 16) :: hexDigit (b.val % 16) :: hexEncodeChars rest

/-- Function `hex.EncodeToString`. -/
def hexEncodeToString (bs : List Byte) : String := ⟨hexEncodeChars bs⟩

def hexDecodeChars : List Char → Except String (List Byte)
  | [] => .ok []
  | [p] =>
    match hexVal p with
    | none => .error "encoding/hex: invalid byte"
    | some _ => .error "encoding/hex: odd length hex string"
  | p :: q :: rest =>
    match hexVal p, hexVal q with
    | some a, some b =>
      match hexDecodeChars rest with
      | .ok tl => .ok (byteOfNat (a * 16 + b) :: tl)
      | .error e => .error e
    | _, _ => .error "encoding/hex: invalid byte"

/-- Function `hex.DecodeString`. -/
def hexDecodeString (s : String) : Except String (List Byte) := hexDecodeChars s.data

/-! ## encoding/base64, standard alphabet with padding -/

def b64Alphabet : List Char :=
  "ABCDEFGHIJKLMNOPQRSTUVWXYZabcdefghijklmnopqrstuvwxyz0123456789+/".data

def b64Pad : Char := Char.ofNat 61

def b64Char (n : Nat) : Char := b64Alphabet.getD n (Char.ofNat 65)

def b64Index (c : Char) : Option Nat :=
  let i := b64Alphabet.indexOf c
  if i < 64 then some i else none

def b64EncodeChars : List Byte → List Char
  | [] => []
  | [a] => [b64Char (a.val / 4), b64Char (a.val % 4 * 16), b64Pad, b64Pad]
  | [a, b] =>
    [b64Char (a.val / 4), b64Char (a.val % 4 * 16 + b.val / 16),
     b64Char (b.val % 16 * 4), b64Pad]
  | a :: b :: c :: rest =>
    b64Char (a.val / 4) :: b64Char (a.val % 4 * 16 + b.val / 16) ::
    b64Char (b.val % 16 * 4 + c.val / 64) :: b64Char (c.val % 64) :: b64EncodeChars rest

/-- Function `base64.StdEncoding.EncodeToString`. -/
def b64EncodeToString (bs : List Byte) : String := ⟨b64EncodeChars bs⟩

/-- Decoding of the quantum groups of a base64 text without line breaks. -/
def b64DecodeQuads : List Char → Except String (List Byte)
  | [] => .ok []
  | [a, b, c, d] =>
    match b64Index a, b64Index b with
    | some x, some y =>
      if c = b64Pad ∧ d = b64Pad then .ok [byteOfNat (x * 4 + y / 16)]
      else
        match b64Index c with
        | none => .error "illegal base64 data"
        | some z =>
          if d = b64Pad then .ok [byteOfNat (x * 4 + y / 16), byteOfNat (y % 16 * 16 + z / 4)]
          else
            match b64Index d with
            | none => .error "illegal base64 data"
            | some w =>
              .ok [byteOfNat (x * 4 + y / 16), byteOfNat (y % 16 * 16 + z / 4),
                   byteOfNat (z % 4 * 64 + w)]
    | _, _ => .error "illegal base64 data"
  | a :: b :: c :: d :: rest =>
    match b64Index a, b64Index b, b64Index c, b64Index d with
    | some x, some y, some z, some w =>
      match b64DecodeQuads rest with
      | .ok tl =>
        .ok (byteOfNat (x * 4 + y / 16) :: byteOfNat (y % 16 * 16 + z / 4) ::
             byteOfNat (z % 4 * 64 + w) :: tl)
      | .error e => .error e
    | _, _, _, _ => .error "illegal base64 data"
  | _ => .error "illegal base64 data"

/-- Function `base64.StdEncoding.DecodeString`: carriage returns and line feeds
in the input are skipped. -/
def b64DecodeString (s : String) : Except String (List Byte) :=
  b64DecodeQuads (s.data.filter fun c => !(c == Char.ofNat 13 || c == Char.ofNat 10))

/-! ## crypto/aes and crypto/cipher: AES in Galois/Counter mode

The AES block function is a parameter: it maps a key and a 128-bit block
(a big-endian natural number) to a block.  Counter mode, GHASH and the tag
check are those of NIST SP 800-38D, which `cipher.NewGCM` implements for the
standard 12-byte nonce and 16-byte tag.  The library's bound on the length of
one message (2^36 - 32 bytes) is outside the model. -/

abbrev BlockCipher := List Byte → Nat → Nat

def gcmNonceSize : Nat := 12

def gcmTagSize : Nat := 16

/-- Big-endian value of a byte string. -/
def blockOfBytes (bs : List Byte) : Nat := bs.foldl (fun acc b => acc * 256 + b.val) 0

/-- The sixteen bytes of a block, most significant first. -/
def bytesOfBlock (x : Nat) : List Byte :=
  (List.range 16).map fun j => byteOfNat (x / 256 ^ (15 - j))

/-- One application of the block cipher, `Block.Encrypt`. -/
def encryptBlock (E : BlockCipher) (key : List Byte) (x : Nat) : Nat := E key x % 2 ^ 128

/-- Key-size check of `aes.NewCipher`. -/
def newCipher (key : List Byte) : Except String Unit :=
  if key.length = 16 ∨ key.length = 24 ∨ key.length = 32 then .ok ()
  else .error ("crypto/aes: invalid key size " ++ toString key.length)

/-- One round of the shift-and-add multiplication in GF(2^128). -/
def gfMulStep (x : Nat) (zv : Nat × Nat) (i : Nat) : Nat × Nat :=
  let z := if x.testBit (127 - i) then zv.1 ^^^ zv.2 else zv.1
  let v := if zv.2 % 2 = 1 then (zv.2 / 2) ^^^ (0xE1 * 2 ^ 120) else zv.2 / 2
  (z, v)

/-- Multiplication in GF(2^128) with the GCM bit order. -/
def gfMul (x y : Nat) : Nat := ((List.range 128).foldl (gfMulStep x) (0, y)).1

/-- A chunk of at most sixteen bytes, zero-padded on the right, as a block. -/
def padBlock (chunk : List Byte) : Nat :=
  blockOfBytes (chunk ++ List.replicate (16 - chunk.length) 0)

/-- GHASH of a ciphertext with empty additional data under hash key `h`. -/
def ghash (h : Nat) (ct : List Byte) : Nat :=
  let y := (List.range ((ct.length + 15) / 16)).foldl
    (fun y i => gfMul (y ^^^ padBlock ((ct.drop (16 * i)).take 16)) h) 0
  gfMul (y ^^^ (8 * ct.length % 2 ^ 64)) h

/-- Pre-counter block of a 12-byte nonce. -/
def gcmJ0 (nonce : List Byte) : Nat := blockOfBytes nonce * 2 ^ 32 + 1

/-- Counter block `i` steps after `j0`: the low 32 bits wrap around. -/
def counterBlock (j0 i : Nat) : Nat := j0 / 2 ^ 32 * 2 ^ 32 + (j0 % 2 ^ 32 + i) % 2 ^ 32

/-- Key stream of `n` blocks starting at counter `i`. -/
def keystream (E : BlockCipher) (key : List Byte) (j0 : Nat) : Nat → Nat → List Byte
  | _, 0 => []
  | i, n + 1 =>
    bytesOfBlock (encryptBlock E key (counterBlock j0 i)) ++ keystream E key j0 (i + 1) n

/-- Counter-mode encryption and decryption of the payload (`counterCrypt`). -/
def counterCrypt (E : BlockCipher) (key : List Byte) (j0 : Nat) (data : List Byte) : List Byte :=
  xorBytes data (keystream E key j0 1 ((data.length + 15) / 16))

/-- Authentication tag of a ciphertext. -/
def gcmTag (E : BlockCipher) (key : List Byte) (j0 : Nat) (ct : List Byte) : List Byte :=
  bytesOfBlock (encryptBlock E key j0 ^^^ ghash (encryptBlock E key 0) ct)

/-- Call `gcm.Seal(dst, nonce, plaintext, nil)`: `dst` followed by the ciphertext and
the tag. -/
def gcmSeal (E : BlockCipher) (key dst nonce plaintext : List Byte) : List Byte :=
  let ct := counterCrypt E key (gcmJ0 nonce) plaintext
  dst ++ ct ++ gcmTag E key (gcmJ0 nonce) ct

/-- Call `gcm.Open(nil, nonce, data, nil)`. -/
def gcmOpen (E : BlockCipher) (key nonce data : List Byte) : Except String (List Byte) :=
  if data.length < gcmTagSize then .error "cipher: message authentication failed"
  else
    let ct := data.take (data.length - gcmTagSize)
    let tag := data.drop (data.length - gcmTagSize)
    if gcmTag E key (gcmJ0 nonce) ct = tag then .ok (counterCrypt E key (gcmJ0 nonce) ct)
    else .error "cipher: message authentication failed"

/-- Outcome of one read of the system random source into a buffer: an error, or
the bytes that fill the buffer (`bytes i` is written at index `i`). -/
inductive RandRead where
  | fail (err : String)
  | fill (bytes : Nat → Byte)

/-- Call `rand.Read(buf)` (and `io.ReadFull(rand.Reader, buf)`) for a buffer of
`n` bytes. -/
def RandRead.read (r : RandRead) (n : Nat) : Except String (List Byte) :=
  match r with
  | .fail e => .error e
  | .fill f => .ok ((List.range n).map f)

/-! ## server/tor_backand.go: key derivation and encryption -/

/-- The Argon2id function `argon2.IDKey(password, salt, time, memory, threads,
keyLen)` together with its contract that the result has `keyLen` bytes. -/
structure Argon2 where
  idKey : List Byte → List Byte → Nat → Nat → Nat → Nat → List Byte
  idKey_length : ∀ password salt time memory threads keyLen,
    (idKey password salt time memory threads keyLen).length = keyLen

def keyDerivationSalt : String := "ephemeral_onion_salt_secure"

def deriveKey (kdf : Argon2) (password : List Byte) : String :=
  let key := kdf.idKey password (bytesOfString keyDerivationSalt) 3 (64 * 1024) 4 32
  hexEncodeToString key

namespace Server

/-- The dispatcher's `encryptMessage(message, key)`; `rnd` is what the random
source does when the nonce is drawn. -/
def encryptMessage (E : BlockCipher) (rnd : RandRead) (message key : List Byte) :
    Except String String :=
  match newCipher key with
  | .error err => .error err
  | .ok _ =>
    match rnd.read gcmNonceSize with
    | .error err => .error err
    | .ok nonce =>
      let ciphertext := gcmSeal E key nonce nonce message
      .ok (b64EncodeToString ciphertext)

end Server

/-! ## aes/aes.go: the cipher tool -/

namespace AesTool

def encryptMessage (E : BlockCipher) (rnd : RandRead) (plaintext key : List Byte) :
    Except String String :=
  match newCipher key with
  | .error err => .error ("failed to create cipher: " ++ err)
  | .ok _ =>
    match rnd.read gcmNonceSize with
    | .error err => .error ("failed to generate nonce: " ++ err)
    | .ok nonce =>
      let ciphertext := gcmSeal E key nonce nonce plaintext
      .ok (b64EncodeToString ciphertext)

def decryptMessage (E : BlockCipher) (encryptedMessage : String) (key : List Byte) :
    Except String (List Byte) :=
  match b64DecodeString (trimSpace encryptedMessage) with
  | .error err => .error ("failed to decode base64: " ++ err)
  | .ok ciphertext =>
    match newCipher key with
    | .error err => .error ("failed to create cipher: " ++ err)
    | .ok _ =>
      let nonceSize := gcmNonceSize
      if ciphertext.length < nonceSize then .error "ciphertext too short"
      else
        match gcmOpen E key (ciphertext.take nonceSize) (ciphertext.drop nonceSize) with
        | .error err => .error ("decryption failed: " ++ err)
        | .ok plaintext => .ok plaintext

end AesTool

/-! ## The world outside the process -/

/-- Instants of the process clock, in nanoseconds. -/
abbrev Time := Int

/-- Values of `time.Duration`, in nanoseconds. -/
abbrev Duration := Int

def second : Duration := 1000000000

/-- Library functions the server only calls: Argon2id, the AES block function
and the text forms of instants and durations. -/
structure Lib where
  kdf : Argon2
  aes : BlockCipher
  formatTime : Time → String
  formatDuration : Duration → String

/-- A `context.Context`, reduced to the instant at which its `Done` channel is
closed; the channel of `context.Background()` is never closed. -/
inductive Context where
  | background
  | cancelledAt (t : Time)
  deriving DecidableEq, Repr

def Context.doneAt : Context → Option Time
  | .background => none
  | .cancelledAt t => some t

/-- Value of `ctx.Err()` once the context is done. -/
def Context.err : Context → Option String
  | .background => none
  | .cancelledAt _ => some "context canceled"

/-! ## server/tor_backand.go: sendNotification -/

/-- A call on the SMTP client made for one recipient. -/
inductive SmtpCall where
  | mail (sender : String)
  | rcpt (recipient : String)
  | data
  | fprintf (format : String)
  | close
  deriving DecidableEq, Repr

/-- What the relay answers to the calls made for one recipient (`none`: no error). -/
structure RecipientEnv where
  mail : Option String
  rcpt : Option String
  data : Option String
  write : Option String
  close : Option String

/-- One iteration of the loop that got past the blank-line check. -/
structure Delivery where
  recipient : String
  calls : List SmtpCall
  logged : Option String
  deriving DecidableEq, Repr

/-- What the file system, the relay and the random source do during one
`sendNotification`; `recipient i` answers the calls made for line `i` of the
subscriber file. -/
structure NotifyEnv where
  readFile : Except String String
  dial : Option String
  startTLS : Option String
  rand : RandRead
  recipient : Nat → RecipientEnv
  quit : Option String

/-- The observable course of one `sendNotification`: the deliveries attempted, whether
`client.Quit` was called, whether the deferred `client.Close` ran, and the
returned error. -/
structure NotifyRun where
  deliveries : List Delivery
  quitCalled : Bool
  clientClosed : Bool
  result : Option String
  deriving DecidableEq, Repr

def notificationSender : String := "noreply@oc2mx.net"

/-- The text `fmt.Sprintf(emailTemplate, email, encryptedMessage)`. -/
def emailMessage (email encryptedMessage : String) : String :=
  "From: Onion Courier <noreply@oc2mx.net>\n" ++
  "To: " ++ email ++ "\n" ++
  "Subject: New Onion Address\n\n" ++
  encryptedMessage

/-- Body of the loop of `sendNotification` for one non-blank recipient: every
failing call logs and leaves the iteration. -/
def deliver (r : RecipientEnv) (email encryptedMessage : String) : Delivery :=
  match r.mail with
  | some err =>
    ⟨email, [.mail notificationSender],
      some ("Mail command failed for " ++ email ++ ": " ++ err)⟩
  | none =>
    match r.rcpt with
    | some err =>
      ⟨email, [.mail notificationSender, .rcpt email],
        some ("Rcpt command failed for " ++ email ++ ": " ++ err)⟩
    | none =>
      match r.data with
      | some err =>
        ⟨email, [.mail notificationSender, .rcpt email, .data],
          some ("Data command failed for " ++ email ++ ": " ++ err)⟩
      | none =>
        let msg := emailMessage email encryptedMessage
        match r.write with
        | some err =>
          ⟨email, [.mail notificationSender, .rcpt email, .data, .fprintf msg],
            some ("Failed to write email to " ++ email ++ ": " ++ err)⟩
        | none =>
          match r.close with
          | some err =>
            ⟨email, [.mail notificationSender, .rcpt email, .data, .fprintf msg, .close],
              some ("Failed to close email to " ++ email ++ ": " ++ err)⟩
          | none =>
            ⟨email, [.mail notificationSender, .rcpt email, .data, .fprintf msg, .close], none⟩

/-- The loop `for _, email := range strings.Split(string(subscribers), "\n")`;
`i` is the index of the first remaining line. -/
def notifyLoop (recipient : Nat → RecipientEnv) (encryptedMessage : String) :
    List String → Nat → List Delivery
  | [], _ => []
  | line :: rest, i =>
    let email := trimSpace line
    if email = "" then notifyLoop recipient encryptedMessage rest (i + 1)
    else deliver (recipient i) email encryptedMessage ::
      notifyLoop recipient encryptedMessage rest (i + 1)

/-- The announcement that is encrypted. -/
def announcement (lib : Lib) (onionID port : String) (validUntil : Time) (duration : Duration) :
    String :=
  "Onion Address: http://" ++ onionID ++ ".onion\nPort: " ++ port ++
  "\nValid Until: " ++ lib.formatTime validUntil ++ " UTC\nDuration: " ++
  lib.formatDuration duration

def sendNotification (lib : Lib) (env : NotifyEnv) (onionID port hexKey : String)
    (validUntil : Time) (duration : Duration) : NotifyRun :=
  match hexDecodeString hexKey with
  | .error err => ⟨[], false, false, some ("failed to decode hex key: " ++ err)⟩
  | .ok key =>
    match env.readFile with
    | .error err => ⟨[], false, false, some ("failed to read subscribers: " ++ err)⟩
    | .ok subscribers =>
      match env.dial with
      | some err => ⟨[], false, false, some ("SMTP connection failed: " ++ err)⟩
      | none =>
        match env.startTLS with
        | some err => ⟨[], false, true, some ("STARTTLS failed: " ++ err)⟩
        | none =>
          let plaintext := announcement lib onionID port validUntil duration
          match Server.encryptMessage lib.aes env.rand (bytesOfString plaintext) key with
          | .error err => ⟨[], false, true, some ("encryption failed: " ++ err)⟩
          | .ok encryptedMessage =>
            let deliveries :=
              notifyLoop env.recipient encryptedMessage (splitNewline subscribers) 0
            ⟨deliveries, true, true, env.quit⟩

/-! ## server/tor_backand.go and server/main.go: the rotation controller -/

structure Config where
  duration : Duration
  port : Int
  password : List Byte
  torDataDir : String
  enableMail : Bool

/-- Observable steps of the controller. -/
inductive Event where
  | listenFailed (err : String)
  | acquired (onionID : String) (time : Time)
  | publish (address : String) (validUntil : Time) (time : Time)
  | deriveKey (hexKey : String)
  | notification (hexKey : String) (run : NotifyRun)
  | log (line : String)
  | serve (onionID : String)
  | serverShutdown
  | onionClose (onionID : String)
  | sleep (d : Duration)
  deriving DecidableEq, Repr

/-- The process state the controller reads and writes: the clock, the two
mutex-guarded globals and the steps taken so far, oldest first. -/
structure World where
  now : Time
  currentOnionAddress : String
  currentValidUntil : Time
  trace : List Event

def World.emit (w : World) (e : Event) : World := { w with trace := w.trace ++ [e] }

def World.advance (w : World) (dt : Nat) : World := { w with now := w.now + dt }

/-- The state of a process that has just started its clock at `t0`. -/
def World.start (t0 : Time) : World := ⟨t0, "", 0, []⟩

/-- What the outside does during one call of `runServiceCycle`: the result of
`t.Listen` (an error, or the identifier of the new onion endpoint), the
notification environment, and the time each stage takes. -/
structure CycleEnv where
  listen : Except String String
  listenElapsed : Nat
  publishElapsed : Nat
  deriveElapsed : Nat
  notify : NotifyEnv
  notifyElapsed : Nat
  startElapsed : Nat
  timerFirst : Bool
  teardownElapsed : Nat

/-- The case a `select` leaves by. -/
inductive Woken where
  | timer
  | done
  deriving DecidableEq, Repr

/-- The statement `select { case <-time.After(d): ... case <-ctx.Done(): ... }`
entered at `start`: the case that is ready first is taken at the instant it
becomes ready; when both are ready at the same instant the runtime picks one
(`timerFirst`). -/
def selectWait (start : Time) (d : Duration) (ctx : Context) (timerFirst : Bool) :
    Woken × Time :=
  let fire := start + max d 0
  match ctx.doneAt with
  | none => (.timer, fire)
  | some c =>
    let ready := max c start
    if fire < ready then (.timer, fire)
    else if ready < fire then (.done, ready)
    else (if timerFirst then .timer else .done, fire)

def banner (lib : Lib) (onionID : String) (config : Config) (hexKey : String)
    (validUntil : Time) : String :=
  "\n=== NEW ONION SERVICE ===\nAddress: http://" ++ onionID ++
  ".onion\nLocal:   http://localhost:" ++ toString config.port ++
  "\nKey:     " ++ hexKey ++
  "\nValid until: " ++ lib.formatTime validUntil ++ " UTC\nDuration: " ++
  lib.formatDuration config.duration ++ "\n========================="

/-- The block `if config.enableMail { ... }` of `runServiceCycle`: an error of
`sendNotification` is logged and nothing else. -/
def notifyStage (lib : Lib) (env : CycleEnv) (config : Config) (onionID hexKey : String)
    (validUntil : Time) (w : World) : World :=
  if config.enableMail then
    let run := sendNotification lib env.notify onionID (toString config.port) hexKey
      validUntil config.duration
    let w := (w.advance env.notifyElapsed).emit (.notification hexKey run)
    match run.result with
    | some err => w.emit (.log ("Failed to send notifications: " ++ err))
    | none => w
  else w

/-- The final `select` of `runServiceCycle` and the deferred calls that run when
the function returns, last registered first: `server.Shutdown`, then
`onion.Close`. -/
def waitStage (ctx : Context) (env : CycleEnv) (config : Config) (onionID : String)
    (w : World) : World × Option String :=
  let woken := selectWait w.now config.duration ctx env.timerFirst
  let w := { w with now := woken.2 }
  let (w, result) :=
    match woken.1 with
    | .timer => (w.emit (.log "Rotating to new onion address..."), none)
    | .done => (w, ctx.err)
  let w := w.emit .serverShutdown
  let w := w.emit (.onionClose onionID)
  (w.advance env.teardownElapsed, result)

def runServiceCycle (lib : Lib) (ctx : Context) (env : CycleEnv) (config : Config)
    (w : World) : World × Option String :=
  match env.listen with
  | .error err =>
    ((w.advance env.listenElapsed).emit (.listenFailed err),
      some ("onion creation failed: " ++ err))
  | .ok onionID =>
    let w := w.advance env.listenElapsed
    let w := w.emit (.acquired onionID w.now)
    let onionAddress := onionID
    let validUntil := w.now + config.duration
    let w := w.advance env.publishElapsed
    let w := { w with currentOnionAddress := onionAddress, currentValidUntil := validUntil }
    let w := w.emit (.publish onionAddress validUntil w.now)
    let hexKey := deriveKey lib.kdf config.password
    let w := (w.advance env.deriveElapsed).emit (.deriveKey hexKey)
    let w := notifyStage lib env config onionID hexKey validUntil w
    let w := w.emit (.log (banner lib onionID config hexKey validUntil))
    let w := (w.advance env.startElapsed).emit (.serve onionID)
    waitStage ctx env config onionID w

/-- The handler that `setupAPI` registers for `/api/onion`: under the mutex it
reads the two globals; the result is the two fields of the JSON object it
writes. -/
def setupAPI.handler (lib : Lib) (w : World) : List (String × String) :=
  [("onionAddress", "http://" ++ w.currentOnionAddress ++ ".onion"),
   ("validUntil", lib.formatTime w.currentValidUntil)]

/-- What the outside does during a run of `main`: the instant the first SIGINT
or SIGTERM reaches the `shutdown` channel, if any, and the environment of each
call of `runServiceCycle`. -/
structure MainEnv where
  shutdownAt : Option Time
  cycle : Nat → CycleEnv

/-- Whether `case <-shutdown` is ready at `now`. -/
def shutdownReady (env : MainEnv) (now : Time) : Bool :=
  match env.shutdownAt with
  | some s => decide (s ≤ now)
  | none => false

/-- The `default:` case of the loop of `main` in iteration `k`: one call of
`runServiceCycle` with `context.Background()`, and on an error the log line and
the five-second sleep. -/
def serviceIteration (lib : Lib) (env : MainEnv) (config : Config) (k : Nat) (w : World) :
    World :=
  match runServiceCycle lib .background (env.cycle k) config w with
  | (w, some err) =>
    let w := w.emit (.log ("Service cycle failed: " ++ err ++ " (retrying in 5 seconds)"))
    (w.emit (.sleep (5 * second))).advance 5000000000
  | (w, none) => w

/-- The main service loop of `main`, run for at most `fuel` iterations from
iteration `k`; the flag tells whether `main` returned. -/
def mainLoop (lib : Lib) (env : MainEnv) (config : Config) : Nat → Nat → World → World × Bool
  | 0, _, w => (w, false)
  | fuel + 1, k, w =>
    if shutdownReady env w.now then (w.emit (.log "Shutting down gracefully..."), true)
    else mainLoop lib env config fuel (k + 1) (serviceIteration lib env config k w)

/-! ## Observations on traces -/

/-- A publication of the pair under the mutex:
the address, the expiry and the instant of the write. -/
structure Publication where
  address : String
  validUntil : Time
  time : Time
  deriving DecidableEq, Repr

def publications (trace : List Event) : List Publication :=
  trace.filterMap fun e =>
    match e with
    | .publish a v t => some ⟨a, v, t⟩
    | _ => none

def derivedKeys (trace : List Event) : List String :=
  trace.filterMap fun e =>
    match e with
    | .deriveKey k => some k
    | _ => none

/-- The keys handed to `sendNotification`, in order. -/
def notifiedKeys (trace : List Event) : List String :=
  trace.filterMap fun e =>
    match e with
    | .notification k _ => some k
    | _ => none

/-- Where the controller stands with respect to its endpoint. -/
inductive Phase where
  | idle
  | held (onionID : String)
  | serving (onionID : String)
  | drained (onionID : String)
  deriving DecidableEq, Repr

/-- The endpoint discipline: an endpoint is requested only when none is held, it
is served, the server is shut down, then the endpoint is closed.  `none`
marks a step out of order. -/
def Phase.step : Phase → Event → Option Phase
  | .idle, .listenFailed _ => some .idle
  | _, .listenFailed _ => none
  | .idle, .acquired id _ => some (.held id)
  | _, .acquired _ _ => none
  | .held id, .serve id2 => if id = id2 then some (.serving id) else none
  | _, .serve _ => none
  | .serving id, .serverShutdown => some (.drained id)
  | _, .serverShutdown => none
  | .drained id, .onionClose id2 => if id = id2 then some .idle else none
  | _, .onionClose _ => none
  | p, _ => some p

def Phase.run : Phase → List Event → Option Phase
  | p, [] => some p
  | p, e :: rest =>
    match p.step e with
    | some q => q.run rest
    | none => none

/-- The facts about a run of the loop that the schedule of publications rests on. -/
def scheduleInv (d : Duration) (w : World) : Prop :=
  (∀ id t, Event.acquired id t ∈ w.trace →
    ∃ p, t ≤ p ∧ Event.publish id (t + d) p ∈ w.trace) ∧
  (∀ pub ∈ publications w.trace,
    ∃ t, Event.acquired pub.address t ∈ w.trace ∧ pub.validUntil = t + d ∧ t ≤ pub.time) ∧
  List.Pairwise (fun first later => first.validUntil ≤ later.time) (publications w.trace) ∧
  (∀ pub ∈ publications w.trace, pub.validUntil ≤ w.now)

/-! ## Sample inputs -/

def sampleCipher : BlockCipher := fun key x => x * 7 + blockOfBytes key + 99

def sampleKdf : Argon2 where
  idKey := fun password salt _ _ _ keyLen =>
    (List.range keyLen).map fun i => byteOfNat (blockOfBytes password + salt.length + i)
  idKey_length := by intros; simp

def sampleLib : Lib := ⟨sampleKdf, sampleCipher, fun t => toString t, fun d => toString d⟩

def sampleKey : List Byte := List.replicate 32 7

def quietRecipient : RecipientEnv := ⟨none, none, none, none, none⟩

def sampleNotifyEnv : NotifyEnv :=
  ⟨.ok "a@x.org\n\n b@y.org \n", none, none, .fill fun i => byteOfNat i, fun _ => quietRecipient, none⟩

/-- Steps that concern neither the endpoint nor the published pair. -/
def Event.silent : Event → Bool
  | .notification _ _ => true
  | .log _ => true
  | _ => false

def sampleConfig : Config := ⟨10 * second, 8080, [112, 119], "", false⟩

/-- A cycle in which `Listen` returns endpoint `id` and every stage takes one
nanosecond. -/
def sampleCycle (id : String) : CycleEnv := ⟨.ok id, 1, 1, 1, sampleNotifyEnv, 1, 1, true, 1⟩

/-- A run in which the first two endpoints are `aaa` and `bbb`. -/
def sampleMainEnv : MainEnv := ⟨none, fun k => if k = 0 then sampleCycle "aaa" else sampleCycle "bbb"⟩

/-- A cycle in which `Listen` fails. -/
def failingCycle : CycleEnv := { sampleCycle "" with listen := .error "control port closed" }

/-- A run whose first `Listen` fails and whose later ones return `bbb`. -/
def retryMainEnv : MainEnv := ⟨none, fun k => if k = 0 then failingCycle else sampleCycle "bbb"⟩

/-- A notification environment in which the relay cannot be reached. -/
def unreachableRelay : NotifyEnv := { sampleNotifyEnv with dial := some "connection refused" }

/-- A relay that rejects the first recipient and fails on `Quit`. -/
def pickyRelay : NotifyEnv :=
  { sampleNotifyEnv with
    recipient := fun i => if i = 0 then { quietRecipient with rcpt := some "550" } else quietRecipient,
    quit := some "421" }

/-- A run in which a shutdown signal arrives three seconds after the start. -/
def signalledMainEnv : MainEnv := { sampleMainEnv with shutdownAt := some (3 * second) }

/-! ## Lemmas on the codecs -/

set_option maxRecDepth 100000

theorem xorByte_cancel (a b : Byte) : xorByte (xorByte a b) b = a := by
  apply Fin.ext
  simp [xorByte, Nat.xor_assoc]

theorem xorBytes_cancel (data pad : List Byte) (h : data.length ≤ pad.length) :
    xorBytes (xorBytes data pad) pad = data := by
  induction data generalizing pad with
  | nil => simp [xorBytes]
  | cons d ds ih =>
    cases pad with
    | nil => simp at h
    | cons p ps =>
      have h2 : ds.length ≤ ps.length := by simpa using h
      have := ih ps h2
      simp only [xorBytes] at this ⊢
      simp [List.zipWith, xorByte_cancel, this]

theorem xorBytes_length (data pad : List Byte) (h : data.length ≤ pad.length) :
    (xorBytes data pad).length = data.length := by
  simp [xorBytes, List.length_zipWith, h]

theorem hexVal_hexDigit : ∀ i : Fin 16, hexVal (hexDigit i.val) = some i.val := by decide

theorem byteOfNat_val (b : Byte) : byteOfNat b.val = b := by
  apply Fin.ext
  simp [byteOfNat, Nat.mod_eq_of_lt b.isLt]

theorem hexDecode_hexEncode (bs : List Byte) : hexDecodeChars (hexEncodeChars bs) = .ok bs := by
  induction bs with
  | nil => rfl
  | cons b rest ih =>
    have h1 := hexVal_hexDigit ⟨b.val / 16, by omega⟩
    have h2 := hexVal_hexDigit ⟨b.val % 16, by omega⟩
    simp only at h1 h2
    have h3 : b.val / 16 * 16 + b.val % 16 = b.val := by omega
    simp only [hexEncodeChars, hexDecodeChars, h1, h2, ih, h3, byteOfNat_val]

theorem hexEncodeChars_length (bs : List Byte) : (hexEncodeChars bs).length = 2 * bs.length := by
  induction bs with
  | nil => rfl
  | cons b rest ih => simp [hexEncodeChars, ih]; omega

theorem b64Index_b64Char : ∀ i : Fin 64, b64Index (b64Char i.val) = some i.val := by decide

theorem b64Char_ne_pad : ∀ i : Fin 64, b64Char i.val ≠ b64Pad := by decide

theorem b64_group (a b c : Byte) :
    byteOfNat (a.val / 4 * 4 + (a.val % 4 * 16 + b.val / 16) / 16) = a ∧
    byteOfNat ((a.val % 4 * 16 + b.val / 16) % 16 * 16 + (b.val % 16 * 4 + c.val / 64) / 4) = b ∧
    byteOfNat ((b.val % 16 * 4 + c.val / 64) % 4 * 64 + c.val % 64) = c := by
  refine ⟨?_, ?_, ?_⟩ <;> apply Fin.ext <;> simp only [byteOfNat] <;> omega

theorem b64Decode_b64Encode (bs : List Byte) : b64DecodeQuads (b64EncodeChars bs) = .ok bs := by
  induction bs using b64EncodeChars.induct with
  | case1 => rfl
  | case2 a =>
    have h1 := b64Index_b64Char ⟨a.val / 4, by omega⟩
    have h2 := b64Index_b64Char ⟨a.val % 4 * 16, by omega⟩
    simp only at h1 h2
    simp only [b64EncodeChars, b64DecodeQuads, h1, h2, and_self, if_true]
    congr 2
    apply Fin.ext; simp only [byteOfNat]; omega
  | case3 a b =>
    have h1 := b64Index_b64Char ⟨a.val / 4, by omega⟩
    have h2 := b64Index_b64Char ⟨a.val % 4 * 16 + b.val / 16, by omega⟩
    have h3 := b64Index_b64Char ⟨b.val % 16 * 4, by omega⟩
    have h4 := b64Char_ne_pad ⟨b.val % 16 * 4, by omega⟩
    simp only at h1 h2 h3 h4
    simp only [b64EncodeChars, b64DecodeQuads, h1, h2, h3, h4, false_and, if_false, if_true]
    have e1 : byteOfNat (a.val / 4 * 4 + (a.val % 4 * 16 + b.val / 16) / 16) = a := by
      apply Fin.ext; simp only [byteOfNat]; omega
    have e2 : byteOfNat ((a.val % 4 * 16 + b.val / 16) % 16 * 16 + b.val % 16 * 4 / 4) = b := by
      apply Fin.ext; simp only [byteOfNat]; omega
    rw [e1, e2]
  | case4 a b c rest ih =>
    have h1 := b64Index_b64Char ⟨a.val / 4, by omega⟩
    have h2 := b64Index_b64Char ⟨a.val % 4 * 16 + b.val / 16, by omega⟩
    have h3 := b64Index_b64Char ⟨b.val % 16 * 4 + c.val / 64, by omega⟩
    have h4 := b64Index_b64Char ⟨c.val % 64, by omega⟩
    have h5 := b64Char_ne_pad ⟨b.val % 16 * 4 + c.val / 64, by omega⟩
    have h6 := b64Char_ne_pad ⟨c.val % 64, by omega⟩
    simp only at h1 h2 h3 h4 h5 h6
    obtain ⟨e1, e2, e3⟩ := b64_group a b c
    cases hr : b64EncodeChars rest with
    | nil =>
      rw [hr] at ih
      have : rest = [] := by
        cases rest with
        | nil => rfl
        | cons x xs =>
          cases xs with
          | nil => simp [b64EncodeChars] at hr
          | cons y ys => cases ys <;> simp [b64EncodeChars] at hr
      subst this
      simp only [b64EncodeChars, b64DecodeQuads, h1, h2, h3, h4, h5, h6, false_and, if_false, e1, e2, e3]
    | cons x xs =>
      rw [hr] at ih
      simp only [b64EncodeChars, hr, b64DecodeQuads, h1, h2, h3, h4, ih, e1, e2, e3]

theorem bytesOfBlock_length (x : Nat) : (bytesOfBlock x).length = 16 := by
  simp [bytesOfBlock]

theorem keystream_length (E : BlockCipher) (key : List Byte) (j0 : Nat) (i n : Nat) :
    (keystream E key j0 i n).length = 16 * n := by
  induction n generalizing i with
  | zero => rfl
  | succ n ih => simp [keystream, ih, bytesOfBlock_length]; omega

theorem counterCrypt_length (E : BlockCipher) (key : List Byte) (j0 : Nat) (data : List Byte) :
    (counterCrypt E key j0 data).length = data.length := by
  unfold counterCrypt
  apply xorBytes_length
  rw [keystream_length]
  omega

theorem counterCrypt_cancel (E : BlockCipher) (key : List Byte) (j0 : Nat) (data : List Byte) :
    counterCrypt E key j0 (counterCrypt E key j0 data) = data := by
  have hl := counterCrypt_length E key j0 data
  rw [counterCrypt, hl]
  unfold counterCrypt
  apply xorBytes_cancel
  rw [keystream_length]
  omega

theorem gcmTag_length (E : BlockCipher) (key : List Byte) (j0 : Nat) (ct : List Byte) :
    (gcmTag E key j0 ct).length = 16 := bytesOfBlock_length _

theorem gcmOpen_gcmSeal (E : BlockCipher) (key nonce plaintext : List Byte) :
    gcmOpen E key nonce (gcmSeal E key [] nonce plaintext) = .ok plaintext := by
  have ht := gcmTag_length E key (gcmJ0 nonce) (counterCrypt E key (gcmJ0 nonce) plaintext)
  simp only [gcmOpen, gcmSeal, List.nil_append, List.length_append, ht, gcmTagSize]
  have h1 : ¬ ((counterCrypt E key (gcmJ0 nonce) plaintext).length + 16 < 16) := by omega
  simp only [h1, if_false, Nat.add_sub_cancel, List.take_left', List.drop_left', if_true,
    counterCrypt_cancel]

theorem gcmSeal_dst (E : BlockCipher) (key dst nonce plaintext : List Byte) :
    gcmSeal E key dst nonce plaintext = dst ++ gcmSeal E key [] nonce plaintext := by
  simp [gcmSeal, List.append_assoc]

theorem b64Char_mem (n : Nat) : b64Char n ∈ b64Alphabet := by
  unfold b64Char
  rw [List.getD_eq_getElem?_getD]
  cases h : b64Alphabet[n]? with
  | none => simp only [Option.getD_none]; decide
  | some c => simpa using List.getElem?_mem h

theorem b64Alphabet_plain :
    ∀ c ∈ b64Pad :: b64Alphabet,
      isSpace c = false ∧ (!(c == Char.ofNat 13 || c == Char.ofNat 10)) = true := by decide

theorem b64EncodeChars_mem (bs : List Byte) : ∀ c ∈ b64EncodeChars bs, c ∈ b64Pad :: b64Alphabet := by
  induction bs using b64EncodeChars.induct with
  | case1 => simp [b64EncodeChars]
  | case2 a => 
    intro c hc
    simp only [b64EncodeChars, List.mem_cons, List.mem_singleton, List.not_mem_nil, or_false] at hc
    rcases hc with h | h | h | h <;> subst h <;> simp [b64Char_mem]
  | case3 a b =>
    intro c hc
    simp only [b64EncodeChars, List.mem_cons, List.mem_singleton, List.not_mem_nil, or_false] at hc
    rcases hc with h | h | h | h <;> subst h <;> simp [b64Char_mem]
  | case4 a b c rest ih =>
    intro x hx
    simp only [b64EncodeChars, List.mem_cons] at hx
    rcases hx with h | h | h | h | h
    · subst h; simp [b64Char_mem]
    · subst h; simp [b64Char_mem]
    · subst h; simp [b64Char_mem]
    · subst h; simp [b64Char_mem]
    · exact ih x h

theorem dropWhile_of_not (p : Char → Bool) (l : List Char) (h : ∀ c ∈ l, p c = false) :
    l.dropWhile p = l := by
  cases l with
  | nil => rfl
  | cons a as => simp [List.dropWhile, h a (List.mem_cons_self _ _)]

theorem trimSpaceChars_of_plain (l : List Char) (h : ∀ c ∈ l, isSpace c = false) :
    trimSpaceChars l = l := by
  unfold trimSpaceChars
  rw [dropWhile_of_not isSpace l h, dropWhile_of_not isSpace l.reverse (by simpa using h),
    List.reverse_reverse]

theorem b64DecodeString_trimSpace_encode (bs : List Byte) :
    b64DecodeString (trimSpace (b64EncodeToString bs)) = .ok bs := by
  have hm := b64EncodeChars_mem bs
  have h1 : trimSpaceChars (b64EncodeChars bs) = b64EncodeChars bs :=
    trimSpaceChars_of_plain _ fun c hc => (b64Alphabet_plain c (hm c hc)).1
  have h2 : (b64EncodeChars bs).filter (fun c => !(c == Char.ofNat 13 || c == Char.ofNat 10))
      = b64EncodeChars bs :=
    List.filter_eq_self.mpr fun c hc => (b64Alphabet_plain c (hm c hc)).2
  simp only [b64DecodeString, trimSpace, b64EncodeToString, h1, h2, b64Decode_b64Encode]

theorem b64EncodeToString_injective (a b : List Byte)
    (h : b64EncodeToString a = b64EncodeToString b) : a = b := by
  have ha := b64DecodeString_trimSpace_encode a
  rw [h, b64DecodeString_trimSpace_encode b] at ha
  exact (Except.ok.inj ha).symm

/-! ## Encryption round trip, nonces and the derived key -/

theorem newCipher_of_length_32 (key : List Byte) (h : key.length = 32) : newCipher key = .ok () := by
  simp [newCipher, h]

theorem encryptMessage_fill (E : BlockCipher) (fill : Nat → Byte) (message key : List Byte)
    (hkey : key.length = 32) :
    Server.encryptMessage E (.fill fill) message key =
      .ok (b64EncodeToString ((List.range 12).map fill ++
        gcmSeal E key [] ((List.range 12).map fill) message)) := by
  simp only [Server.encryptMessage, newCipher_of_length_32 key hkey, RandRead.read, gcmNonceSize]
  rw [gcmSeal_dst]

theorem tool_encryptMessage_fill (E : BlockCipher) (fill : Nat → Byte) (message key : List Byte)
    (hkey : key.length = 32) :
    AesTool.encryptMessage E (.fill fill) message key =
      .ok (b64EncodeToString ((List.range 12).map fill ++
        gcmSeal E key [] ((List.range 12).map fill) message)) := by
  simp only [AesTool.encryptMessage, newCipher_of_length_32 key hkey, RandRead.read, gcmNonceSize]
  rw [gcmSeal_dst]

theorem decryptMessage_blob (E : BlockCipher) (key nonce plaintext : List Byte)
    (hkey : key.length = 32) (hn : nonce.length = 12) :
    AesTool.decryptMessage E (b64EncodeToString (nonce ++ gcmSeal E key [] nonce plaintext)) key
      = .ok plaintext := by
  simp only [AesTool.decryptMessage, b64DecodeString_trimSpace_encode,
    newCipher_of_length_32 key hkey, gcmNonceSize, List.length_append, hn]
  have h1 : ¬ (12 + (gcmSeal E key [] nonce plaintext).length < 12) := by omega
  have h2 : (nonce ++ gcmSeal E key [] nonce plaintext).take 12 = nonce := by
    rw [← hn]; exact List.take_left' rfl
  have h3 : (nonce ++ gcmSeal E key [] nonce plaintext).drop 12 = gcmSeal E key [] nonce plaintext := by
    rw [← hn]; exact List.drop_left' rfl
  simp only [h1, if_false, h2, h3, gcmOpen_gcmSeal]

theorem encryptMessage_ok_form (E : BlockCipher) (fill : Nat → Byte) (message key : List Byte)
    (out : String) (h : Server.encryptMessage E (.fill fill) message key = .ok out) :
    out = b64EncodeToString ((List.range 12).map fill ++
        gcmSeal E key [] ((List.range 12).map fill) message) := by
  unfold Server.encryptMessage at h
  cases hk : newCipher key with
  | error e => rw [hk] at h; simp at h
  | ok u =>
    rw [hk] at h
    simp only [RandRead.read, gcmNonceSize, Except.ok.injEq] at h
    rw [← h, gcmSeal_dst]

theorem b64DecodeString_encode (bs : List Byte) :
    b64DecodeString (b64EncodeToString bs) = .ok bs := by
  have hm := b64EncodeChars_mem bs
  have h2 : (b64EncodeChars bs).filter (fun c => !(c == Char.ofNat 13 || c == Char.ofNat 10))
      = b64EncodeChars bs :=
    List.filter_eq_self.mpr fun c hc => (b64Alphabet_plain c (hm c hc)).2
  simp only [b64DecodeString, b64EncodeToString, h2, b64Decode_b64Encode]

/-- C2: for a 32-byte key, any plaintext and any nonce drawn, both versions of
`encryptMessage` return the base64 text of the 12-byte nonce followed by the
sealed ciphertext, and the tool's `decryptMessage` with the same key returns
the plaintext and no error. -/
theorem decryptMessage_encryptMessage (E : BlockCipher) (key plaintext : List Byte)
    (fill : Nat → Byte) (hkey : key.length = 32) :
    ((List.range 12).map fill).length = 12 ∧
    Server.encryptMessage E (.fill fill) plaintext key =
      .ok (b64EncodeToString ((List.range 12).map fill ++
        gcmSeal E key [] ((List.range 12).map fill) plaintext)) ∧
    AesTool.encryptMessage E (.fill fill) plaintext key =
      Server.encryptMessage E (.fill fill) plaintext key ∧
    (∀ out, Server.encryptMessage E (.fill fill) plaintext key = .ok out →
      AesTool.decryptMessage E out key = .ok plaintext) := by
  have hn : ((List.range 12).map fill).length = 12 := by simp
  refine ⟨hn, encryptMessage_fill E fill plaintext key hkey, ?_, ?_⟩
  · rw [encryptMessage_fill E fill plaintext key hkey, tool_encryptMessage_fill E fill plaintext key hkey]
  · intro out hout
    rw [encryptMessage_fill E fill plaintext key hkey] at hout
    rw [← Except.ok.inj hout]
    exact decryptMessage_blob E key _ plaintext hkey hn

theorem decryptMessage_encryptMessage_witness :
    sampleKey.length = 32 ∧
    ∀ out, Server.encryptMessage sampleCipher (.fill fun i => byteOfNat i) [104, 105] sampleKey
        = .ok out →
      AesTool.decryptMessage sampleCipher out sampleKey = .ok [104, 105] :=
  ⟨by decide,
    (decryptMessage_encryptMessage sampleCipher sampleKey [104, 105] (fun i => byteOfNat i)
      (by decide)).2.2.2⟩

/-- C3 as stated fails: with the key of 32 bytes `7` and the plaintext `hi`, a call
that draws twelve zero bytes returns `AAAAAAAAAAAAAAAAb25R4WicixyLHIscixyLHJfx`,
and so does a second call that draws the same bytes; hence it is not true
that two calls always differ in nonce and output. -/
theorem encryptMessage_nonce_can_repeat :
    Server.encryptMessage sampleCipher (.fill fun _ => 0) [104, 105] sampleKey =
      .ok "AAAAAAAAAAAAAAAAb25R4WicixyLHIscixyLHJfx" ∧
    ¬ ∀ (first second : Nat → Byte) (out1 out2 : String),
      Server.encryptMessage sampleCipher (.fill first) [104, 105] sampleKey = .ok out1 →
      Server.encryptMessage sampleCipher (.fill second) [104, 105] sampleKey = .ok out2 →
      (List.range 12).map first ≠ (List.range 12).map second ∧ out1 ≠ out2 := by
  refine ⟨by rfl, ?_⟩
  intro h
  have hk : sampleKey.length = 32 := by decide
  have e := encryptMessage_fill sampleCipher (fun _ => 0) [104, 105] sampleKey hk
  exact (h (fun _ => 0) (fun _ => 0) _ _ e e).2 rfl

/-- C3, amended: every call draws its own twelve nonce bytes, and two calls with
the same key and plaintext return the same text exactly when the nonces drawn
are the same; calls that draw different nonces return different texts. -/
theorem encryptMessage_output_eq_iff_nonce_eq (E : BlockCipher) (key message : List Byte)
    (first second : Nat → Byte) (out1 out2 : String)
    (h1 : Server.encryptMessage E (.fill first) message key = .ok out1)
    (h2 : Server.encryptMessage E (.fill second) message key = .ok out2) :
    (∃ rest, b64DecodeString out1 = .ok ((List.range 12).map first ++ rest)) ∧
    (∃ rest, b64DecodeString out2 = .ok ((List.range 12).map second ++ rest)) ∧
    (out1 = out2 ↔ (List.range 12).map first = (List.range 12).map second) := by
  have e1 := encryptMessage_ok_form E first message key out1 h1
  have e2 := encryptMessage_ok_form E second message key out2 h2
  refine ⟨⟨_, by rw [e1, b64DecodeString_encode]⟩, ⟨_, by rw [e2, b64DecodeString_encode]⟩, ?_⟩
  constructor
  · intro h
    rw [e1, e2] at h
    have hb := b64EncodeToString_injective _ _ h
    exact (List.append_inj hb (by simp)).1
  · intro h
    rw [e1, e2, h]

theorem encryptMessage_output_eq_iff_nonce_eq_witness :
    ("AAECAwQFBgcICQoLb2fxaPUFRvNU4VqfKI1i3n4w" = "AAAAAAAAAAAAAAAAb25R4WicixyLHIscixyLHJfx" ↔
      (List.range 12).map (fun i => byteOfNat i) = (List.range 12).map (fun _ => (0 : Byte))) :=
  (encryptMessage_output_eq_iff_nonce_eq sampleCipher sampleKey [104, 105]
    (fun i => byteOfNat i) (fun _ => 0) "AAECAwQFBgcICQoLb2fxaPUFRvNU4VqfKI1i3n4w"
    "AAAAAAAAAAAAAAAAb25R4WicixyLHIscixyLHJfx" (by rfl) (by rfl)).2.2

theorem hexEncodeChars_mem (bs : List Byte) : ∀ c ∈ hexEncodeChars bs, c ∈ hexAlphabet := by
  have hd : ∀ n, hexDigit n ∈ hexAlphabet := by
    intro n
    unfold hexDigit
    rw [List.getD_eq_getElem?_getD]
    cases h : hexAlphabet[n]? with
    | none => simp only [Option.getD_none]; decide
    | some c => simpa using List.getElem?_mem h
  induction bs with
  | nil => simp [hexEncodeChars]
  | cons b rest ih =>
    intro c hc
    simp only [hexEncodeChars, List.mem_cons] at hc
    rcases hc with h | h | h
    · rw [h]; exact hd _
    · rw [h]; exact hd _
    · exact ih c h

theorem hexDecodeString_deriveKey (kdf : Argon2) (password : List Byte) :
    hexDecodeString (deriveKey kdf password) =
      .ok (kdf.idKey password (bytesOfString keyDerivationSalt) 3 (64 * 1024) 4 32) := by
  simp only [hexDecodeString, deriveKey, hexEncodeToString, hexDecode_hexEncode]

/-- C9: `deriveKey` returns 64 hexadecimal characters that depend on the password
(and the static salt) only; decoding them, as `sendNotification` does, succeeds
with the 32 bytes Argon2id returned, a key `aes.NewCipher` accepts. -/
theorem deriveKey_is_aes256_key (kdf : Argon2) (password : List Byte) :
    (deriveKey kdf password).length = 64 ∧
    (∀ c ∈ (deriveKey kdf password).data, c ∈ hexAlphabet) ∧
    (∀ again, again = password → deriveKey kdf again = deriveKey kdf password) ∧
    deriveKey kdf password =
      hexEncodeToString (kdf.idKey password (bytesOfString keyDerivationSalt) 3 65536 4 32) ∧
    ∃ key, hexDecodeString (deriveKey kdf password) = .ok key ∧ key.length = 32 ∧
      newCipher key = .ok () := by
  have hl := kdf.idKey_length password (bytesOfString keyDerivationSalt) 3 (64 * 1024) 4 32
  refine ⟨?_, ?_, ?_, rfl, _, hexDecodeString_deriveKey kdf password, hl,
    newCipher_of_length_32 _ hl⟩
  · simp only [deriveKey, hexEncodeToString, String.length, hexEncodeChars_length, hl]
  · exact hexEncodeChars_mem _
  · intro again h
    rw [h]

/-! ## The notification loop -/

theorem deliver_recipient (r : RecipientEnv) (email enc : String) :
    (deliver r email enc).recipient = email := by
  unfold deliver
  repeat' split
  all_goals rfl

theorem deliver_calls_head (r : RecipientEnv) (email enc : String) :
    (deliver r email enc).calls.head? = some (.mail notificationSender) := by
  unfold deliver
  repeat' split
  all_goals rfl

theorem notifyLoop_recipients (recipient : Nat → RecipientEnv) (enc : String)
    (lines : List String) (i : Nat) :
    (notifyLoop recipient enc lines i).map (fun d => d.recipient) =
      (lines.map trimSpace).filter (fun email => decide (email ≠ "")) := by
  induction lines generalizing i with
  | nil => rfl
  | cons line rest ih =>
    by_cases h : trimSpace line = ""
    · simp [notifyLoop, h, ih]
    · simp [notifyLoop, h, ih, deliver_recipient]

theorem notifyLoop_calls (recipient : Nat → RecipientEnv) (enc : String)
    (lines : List String) (i : Nat) :
    ∀ d ∈ notifyLoop recipient enc lines i, d.calls.head? = some (.mail notificationSender) := by
  induction lines generalizing i with
  | nil => simp [notifyLoop]
  | cons line rest ih =>
    by_cases h : trimSpace line = ""
    · simpa [notifyLoop, h] using ih (i + 1)
    · intro d hd
      simp only [notifyLoop, h, if_false, List.mem_cons] at hd
      rcases hd with hd | hd
      · rw [hd]; exact deliver_calls_head _ _ _
      · exact ih (i + 1) d hd

/-- C5: once the relay session is set up, whatever the relay answers for each
recipient, `sendNotification` issues `MAIL` for every trimmed non-blank line
of the subscriber file, in file order, and returns what `Quit` returns. -/
theorem sendNotification_reaches_every_recipient (lib : Lib) (env : NotifyEnv)
    (onionID port hexKey : String) (validUntil : Time) (duration : Duration)
    (key : List Byte) (subscribers encryptedMessage : String)
    (hkey : hexDecodeString hexKey = .ok key)
    (hfile : env.readFile = .ok subscribers)
    (hdial : env.dial = none) (htls : env.startTLS = none)
    (henc : Server.encryptMessage lib.aes env.rand
      (bytesOfString (announcement lib onionID port validUntil duration)) key
        = .ok encryptedMessage) :
    (sendNotification lib env onionID port hexKey validUntil duration).deliveries.map
        (fun d => d.recipient) =
      ((splitNewline subscribers).map trimSpace).filter (fun email => decide (email ≠ "")) ∧
    (∀ d ∈ (sendNotification lib env onionID port hexKey validUntil duration).deliveries,
      d.calls.head? = some (.mail notificationSender)) ∧
    (sendNotification lib env onionID port hexKey validUntil duration).quitCalled = true ∧
    (sendNotification lib env onionID port hexKey validUntil duration).result = env.quit := by
  have e : sendNotification lib env onionID port hexKey validUntil duration =
      ⟨notifyLoop env.recipient encryptedMessage (splitNewline subscribers) 0, true, true,
        env.quit⟩ := by
    simp only [sendNotification, hkey, hfile, hdial, htls, henc]
  rw [e]
  exact ⟨notifyLoop_recipients _ _ _ _, notifyLoop_calls _ _ _ _, rfl, rfl⟩

theorem sendNotification_reaches_every_recipient_witness :
    (sendNotification sampleLib pickyRelay "aaa" "8080" (deriveKey sampleKdf [112, 119]) 0
        (10 * second)).deliveries.map (fun d => d.recipient) = ["a@x.org", "b@y.org"] ∧
    (sendNotification sampleLib pickyRelay "aaa" "8080" (deriveKey sampleKdf [112, 119]) 0
        (10 * second)).result = some "421" :=
  have h := sendNotification_reaches_every_recipient sampleLib pickyRelay "aaa" "8080"
    (deriveKey sampleKdf [112, 119]) 0 (10 * second) _ "a@x.org\n\n b@y.org \n" _
    (hexDecodeString_deriveKey sampleKdf [112, 119]) rfl rfl rfl
    (encryptMessage_fill sampleCipher (fun i => byteOfNat i) _ _
      (sampleKdf.idKey_length _ _ _ _ _ _))
  ⟨h.1.trans (by rfl), h.2.2.2⟩

/-! ## One rotation cycle and one loop iteration -/

theorem selectWait_background (start : Time) (d : Duration) (b : Bool) :
    selectWait start d .background b = (.timer, start + max d 0) := rfl

theorem notifyStage_spec (lib : Lib) (env : CycleEnv) (config : Config) (id key : String)
    (v : Time) (w : World) :
    ∃ (mid : List Event) (dt : Nat),
      notifyStage lib env config id key v w =
        { w with now := w.now + dt, trace := w.trace ++ mid } ∧
      (∀ e ∈ mid, e.silent = true) ∧
      (config.enableMail = false → mid = []) ∧
      (config.enableMail = true → dt = env.notifyElapsed ∧
        ∃ rest, mid = .notification key (sendNotification lib env.notify id
          (toString config.port) key v config.duration) :: rest ∧ ∀ e ∈ rest, ∃ l, e = .log l) ∧
      dt = (if config.enableMail then env.notifyElapsed else 0) := by
  cases hm : config.enableMail
  · exact ⟨[], 0, by simp [notifyStage, hm], by simp, by simp, by simp, by simp⟩
  · cases hr : (sendNotification lib env.notify id (toString config.port) key v
        config.duration).result with
    | none =>
      refine ⟨[.notification key (sendNotification lib env.notify id (toString config.port) key v
        config.duration)], env.notifyElapsed, ?_, ?_, by simp, ?_, by simp⟩
      · simp [notifyStage, hm, hr, World.emit, World.advance]
      · simp [Event.silent]
      · simp
    | some err =>
      refine ⟨[.notification key (sendNotification lib env.notify id (toString config.port) key v
        config.duration), .log ("Failed to send notifications: " ++ err)],
        env.notifyElapsed, ?_, ?_, by simp, ?_, by simp⟩
      · simp [notifyStage, hm, hr, World.emit, World.advance]
      · simp [Event.silent]
      · simp

theorem waitStage_spec (ctx : Context) (env : CycleEnv) (config : Config) (id : String)
    (w : World) :
    ∃ (tail : List Event),
      (waitStage ctx env config id w).1 =
        { w with now := (selectWait w.now config.duration ctx env.timerFirst).2 + env.teardownElapsed,
                 trace := w.trace ++ (tail ++ [.serverShutdown, .onionClose id]) } ∧
      (∀ e ∈ tail, ∃ l, e = .log l) ∧
      (waitStage ctx env config id w).2 =
        (match (selectWait w.now config.duration ctx env.timerFirst).1 with
         | .timer => none
         | .done => ctx.err) := by
  cases hw : (selectWait w.now config.duration ctx env.timerFirst).1
  · exact ⟨[.log "Rotating to new onion address..."],
      by simp [waitStage, hw, World.emit, World.advance], by simp,
      by simp [waitStage, hw]⟩
  · exact ⟨[], by simp [waitStage, hw, World.emit, World.advance], by simp,
      by simp [waitStage, hw]⟩

theorem runServiceCycle_failed (lib : Lib) (ctx : Context) (env : CycleEnv) (config : Config)
    (w : World) (err : String) (hl : env.listen = .error err) :
    runServiceCycle lib ctx env config w =
      ({ w with now := w.now + env.listenElapsed, trace := w.trace ++ [.listenFailed err] },
        some ("onion creation failed: " ++ err)) := by
  simp [runServiceCycle, hl, World.emit, World.advance]

theorem runServiceCycle_acquired (lib : Lib) (ctx : Context) (env : CycleEnv) (config : Config)
    (w : World) (id : String) (hl : env.listen = .ok id) :
    ∃ (mid tail : List Event) (dn : Nat),
      (runServiceCycle lib ctx env config w).1 =
        ⟨(selectWait (w.now + env.listenElapsed + env.publishElapsed + env.deriveElapsed + dn +
              env.startElapsed) config.duration ctx env.timerFirst).2 + env.teardownElapsed,
          id, w.now + env.listenElapsed + config.duration,
          w.trace ++ ([.acquired id (w.now + env.listenElapsed),
            .publish id (w.now + env.listenElapsed + config.duration)
              (w.now + env.listenElapsed + env.publishElapsed),
            .deriveKey (deriveKey lib.kdf config.password)] ++ mid ++
            [.log (banner lib id config (deriveKey lib.kdf config.password)
              (w.now + env.listenElapsed + config.duration)), .serve id] ++ tail ++
            [.serverShutdown, .onionClose id])⟩ ∧
      (runServiceCycle lib ctx env config w).2 =
        (match (selectWait (w.now + env.listenElapsed + env.publishElapsed + env.deriveElapsed +
              dn + env.startElapsed) config.duration ctx env.timerFirst).1 with
         | .timer => none
         | .done => ctx.err) ∧
      (∀ e ∈ mid, e.silent = true) ∧ (∀ e ∈ tail, e.silent = true) ∧
      (config.enableMail = false → mid = []) ∧
      (config.enableMail = true → dn = env.notifyElapsed ∧
        ∃ rest, mid = .notification (deriveKey lib.kdf config.password)
          (sendNotification lib env.notify id (toString config.port)
            (deriveKey lib.kdf config.password) (w.now + env.listenElapsed + config.duration)
            config.duration) :: rest ∧ ∀ e ∈ rest, ∃ l, e = .log l) ∧
      (∀ e ∈ tail, ∃ l, e = .log l) ∧
      dn = (if config.enableMail then env.notifyElapsed else 0) := by
  obtain ⟨mid, dn, hn, hmid, hoff, hon, hdn⟩ := notifyStage_spec lib env config id
    (deriveKey lib.kdf config.password) (w.now + env.listenElapsed + config.duration)
    ⟨w.now + env.listenElapsed + env.publishElapsed + env.deriveElapsed, id,
      w.now + env.listenElapsed + config.duration,
      w.trace ++ [.acquired id (w.now + env.listenElapsed),
        .publish id (w.now + env.listenElapsed + config.duration)
          (w.now + env.listenElapsed + env.publishElapsed),
        .deriveKey (deriveKey lib.kdf config.password)]⟩
  obtain ⟨tail, ht, htail, hres⟩ := waitStage_spec ctx env config id
    ⟨w.now + env.listenElapsed + env.publishElapsed + env.deriveElapsed + dn + env.startElapsed,
      id, w.now + env.listenElapsed + config.duration,
      w.trace ++ [.acquired id (w.now + env.listenElapsed),
        .publish id (w.now + env.listenElapsed + config.duration)
          (w.now + env.listenElapsed + env.publishElapsed),
        .deriveKey (deriveKey lib.kdf config.password)] ++ mid ++
        [.log (banner lib id config (deriveKey lib.kdf config.password)
          (w.now + env.listenElapsed + config.duration)), .serve id]⟩
  refine ⟨mid, tail, dn, ?_, ?_, hmid, ?_, hoff, hon, htail, hdn⟩
  rotate_left 2
  · intro e he
    obtain ⟨l, hl2⟩ := htail e he
    rw [hl2]; rfl
  · simp only [runServiceCycle, hl, World.emit, World.advance] at hn ht ⊢
    simp only [List.append_assoc, List.cons_append, List.nil_append] at hn ht ⊢
    rw [hn]
    simp only [List.append_assoc, List.cons_append, List.nil_append]
    rw [ht]
  · simp only [runServiceCycle, hl, World.emit, World.advance] at hn hres ⊢
    simp only [List.append_assoc, List.cons_append, List.nil_append] at hn hres ⊢
    rw [hn]
    simp only [List.append_assoc, List.cons_append, List.nil_append]
    rw [hres]

theorem serviceIteration_failed (lib : Lib) (env : MainEnv) (config : Config) (k : Nat)
    (w : World) (err : String) (hl : (env.cycle k).listen = .error err) :
    serviceIteration lib env config k w =
      { w with
        now := w.now + (env.cycle k).listenElapsed + 5000000000,
        trace := w.trace ++ [.listenFailed err,
          .log ("Service cycle failed: " ++ ("onion creation failed: " ++ err) ++
            " (retrying in 5 seconds)"),
          .sleep (5 * second)] } := by
  simp [serviceIteration, runServiceCycle_failed lib .background (env.cycle k) config w err hl,
    World.emit, World.advance]

theorem serviceIteration_acquired (lib : Lib) (env : MainEnv) (config : Config) (k : Nat)
    (w : World) (id : String) (hl : (env.cycle k).listen = .ok id) :
    ∃ (mid tail : List Event) (dn : Nat),
      serviceIteration lib env config k w =
        ⟨w.now + (env.cycle k).listenElapsed + (env.cycle k).publishElapsed +
            (env.cycle k).deriveElapsed + dn + (env.cycle k).startElapsed +
            max config.duration 0 + (env.cycle k).teardownElapsed,
          id, w.now + (env.cycle k).listenElapsed + config.duration,
          w.trace ++ ([.acquired id (w.now + (env.cycle k).listenElapsed),
            .publish id (w.now + (env.cycle k).listenElapsed + config.duration)
              (w.now + (env.cycle k).listenElapsed + (env.cycle k).publishElapsed),
            .deriveKey (deriveKey lib.kdf config.password)] ++ mid ++
            [.log (banner lib id config (deriveKey lib.kdf config.password)
              (w.now + (env.cycle k).listenElapsed + config.duration)), .serve id] ++ tail ++
            [.serverShutdown, .onionClose id])⟩ ∧
      (∀ e ∈ mid, e.silent = true) ∧ (∀ e ∈ tail, e.silent = true) ∧
      (∀ key run, .notification key run ∈ mid → key = deriveKey lib.kdf config.password) ∧
      (∀ e ∈ tail, ∃ l, e = .log l) := by
  obtain ⟨mid, tail, dn, h1, h2, hmid, htail, hoff, hon, hlogs, _⟩ :=
    runServiceCycle_acquired lib .background (env.cycle k) config w id hl
  refine ⟨mid, tail, dn, ?_, hmid, htail, ?_, hlogs⟩
  · rw [selectWait_background] at h1 h2
    simp only at h2
    unfold serviceIteration
    rw [show runServiceCycle lib .background (env.cycle k) config w =
      ((runServiceCycle lib .background (env.cycle k) config w).1,
       (runServiceCycle lib .background (env.cycle k) config w).2) from rfl, h2, h1]
  · intro key run hmem
    cases hm : config.enableMail
    · rw [hoff hm] at hmem; simp at hmem
    · obtain ⟨_, rest, hrest, hlog⟩ := hon hm
      rw [hrest] at hmem
      rcases List.mem_cons.mp hmem with h | h
      · injection h with h1 _
      · obtain ⟨l, hl2⟩ := hlog _ h
        cases hl2

theorem mainLoop_invariant (lib : Lib) (env : MainEnv) (config : Config) (P : World → Prop)
    (hstep : ∀ k w, P w → P (serviceIteration lib env config k w))
    (hlog : ∀ w line, P w → P (w.emit (.log line))) :
    ∀ fuel k w, P w → P (mainLoop lib env config fuel k w).1 := by
  intro fuel
  induction fuel with
  | zero => intro k w h; exact h
  | succ n ih =>
    intro k w h
    unfold mainLoop
    split
    · exact hlog w _ h
    · exact ih (k + 1) _ (hstep k w h)

/-! ## Endpoint discipline -/

theorem Phase.run_append (p : Phase) (l1 l2 : List Event) :
    Phase.run p (l1 ++ l2) = (Phase.run p l1).bind fun q => Phase.run q l2 := by
  induction l1 generalizing p with
  | nil => rfl
  | cons e rest ih =>
    simp only [List.cons_append, Phase.run]
    cases p.step e with
    | none => rfl
    | some q => exact ih q

theorem Phase.step_silent (p : Phase) (e : Event) (h : e.silent = true) : p.step e = some p := by
  cases e <;> simp [Event.silent] at h <;> cases p <;> rfl

theorem Phase.run_silent (p : Phase) (l : List Event) (h : ∀ e ∈ l, e.silent = true) :
    Phase.run p l = some p := by
  induction l with
  | nil => rfl
  | cons e rest ih =>
    simp only [Phase.run, Phase.step_silent p e (h e (List.mem_cons_self _ _))]
    exact ih fun x hx => h x (List.mem_cons_of_mem _ hx)

theorem Phase.run_cons (p : Phase) (e : Event) (l : List Event) :
    Phase.run p (e :: l) = (p.step e).bind fun q => Phase.run q l := by
  cases h : p.step e <;> simp [Phase.run, h]

theorem Phase.run_body (id : String) (v p : Time) (key line : String)
    (mid tail : List Event)
    (hmid : ∀ e ∈ mid, e.silent = true) (htail : ∀ e ∈ tail, e.silent = true) :
    Phase.run (.held id) ([.publish id v p, .deriveKey key] ++ mid ++
      [.log line, .serve id] ++ tail) = some (.serving id) := by
  rw [Phase.run_append, Phase.run_append, Phase.run_append]
  have h1 : Phase.run (.held id) [.publish id v p, .deriveKey key] = some (.held id) := rfl
  have h2 : Phase.run (.held id) [.log line, .serve id] = some (.serving id) := by
    simp [Phase.run_cons, Phase.step, Phase.run]
  simp only [h1, Option.bind, Phase.run_silent _ mid hmid, h2, Phase.run_silent _ tail htail]

theorem Phase.run_cycle (id : String) (t v p : Time) (key line : String)
    (mid tail : List Event)
    (hmid : ∀ e ∈ mid, e.silent = true) (htail : ∀ e ∈ tail, e.silent = true) :
    Phase.run .idle ([.acquired id t, .publish id v p, .deriveKey key] ++ mid ++
      [.log line, .serve id] ++ tail ++ [.serverShutdown, .onionClose id]) = some .idle := by
  have hb := Phase.run_body id v p key line mid tail hmid htail
  have e : [.acquired id t, .publish id v p, .deriveKey key] ++ mid ++
      [.log line, .serve id] ++ tail ++ [.serverShutdown, .onionClose id] =
      Event.acquired id t :: (([.publish id v p, .deriveKey key] ++ mid ++
      [.log line, .serve id] ++ tail) ++ [.serverShutdown, .onionClose id]) := by
    simp only [List.append_assoc, List.cons_append, List.nil_append]
  rw [e, Phase.run_cons, Phase.step]
  simp only [Option.bind]
  rw [Phase.run_append, hb]
  simp [Phase.run_cons, Phase.step, Phase.run]

theorem serviceIteration_phase (lib : Lib) (env : MainEnv) (config : Config) (k : Nat)
    (w : World) (h : Phase.run .idle w.trace = some .idle) :
    Phase.run .idle (serviceIteration lib env config k w).trace = some .idle := by
  cases hl : (env.cycle k).listen with
  | error err =>
    rw [serviceIteration_failed lib env config k w err hl]
    simp only [Phase.run_append, h, Option.bind, Phase.run, Phase.step]
  | ok id =>
    obtain ⟨mid, tail, dn, he, hmid, htail, _⟩ :=
      serviceIteration_acquired lib env config k w id hl
    rw [he]
    simp only [Phase.run_append _ w.trace, h, Option.bind]
    exact Phase.run_cycle id _ _ _ _ _ mid tail hmid htail

/-- C6: in every run of the main loop the steps on endpoints follow the
discipline request, serve, shut the server down, close the endpoint, and a
request is made only when no endpoint is held; every call of
`runServiceCycle` that acquired an endpoint, whichever case its `select`
leaves by, ends with the server shutdown followed by the close of that
endpoint. -/
theorem endpoint_released_before_next_cycle (lib : Lib) (env : MainEnv) (config : Config)
    (t0 : Time) (fuel : Nat) :
    Phase.run .idle (mainLoop lib env config fuel 0 (World.start t0)).1.trace = some .idle ∧
    ∀ (ctx : Context) (cenv : CycleEnv) (w : World) (id : String), cenv.listen = .ok id →
      ∃ body, (runServiceCycle lib ctx cenv config w).1.trace =
          w.trace ++ (.acquired id (w.now + cenv.listenElapsed) :: body ++
            [.serverShutdown, .onionClose id]) ∧
        Phase.run (.held id) body = some (.serving id) := by
  constructor
  · apply mainLoop_invariant lib env config (fun w => Phase.run .idle w.trace = some .idle)
    · intro k w h
      exact serviceIteration_phase lib env config k w h
    · intro w line h
      simp only [World.emit, Phase.run_append, h, Option.bind, Phase.run, Phase.step]
    · rfl
  · intro ctx cenv w id hl
    obtain ⟨mid, tail, dn, h1, _, hmid, htail, _⟩ :=
      runServiceCycle_acquired lib ctx cenv config w id hl
    refine ⟨[.publish id (w.now + cenv.listenElapsed + config.duration)
        (w.now + cenv.listenElapsed + cenv.publishElapsed),
      .deriveKey (deriveKey lib.kdf config.password)] ++ mid ++
      [.log (banner lib id config (deriveKey lib.kdf config.password)
        (w.now + cenv.listenElapsed + config.duration)), .serve id] ++ tail, ?_, ?_⟩
    · rw [h1]
      simp only [List.append_assoc, List.cons_append, List.nil_append]
    · exact Phase.run_body id _ _ _ _ mid tail hmid htail

/-! ## Publications and keys along a run -/

theorem derivedKeys_append (l1 l2 : List Event) :
    derivedKeys (l1 ++ l2) = derivedKeys l1 ++ derivedKeys l2 := by
  simp [derivedKeys, List.filterMap_append]

theorem notifiedKeys_append (l1 l2 : List Event) :
    notifiedKeys (l1 ++ l2) = notifiedKeys l1 ++ notifiedKeys l2 := by
  simp [notifiedKeys, List.filterMap_append]

theorem publications_append (l1 l2 : List Event) :
    publications (l1 ++ l2) = publications l1 ++ publications l2 := by
  simp [publications, List.filterMap_append]

theorem derivedKeys_silent (l : List Event) (h : ∀ e ∈ l, e.silent = true) :
    derivedKeys l = [] := by
  induction l with
  | nil => rfl
  | cons e rest ih =>
    have he := h e (List.mem_cons_self _ _)
    have hr := ih fun x hx => h x (List.mem_cons_of_mem _ hx)
    cases e <;> simp [Event.silent] at he <;> simpa [derivedKeys] using hr

theorem publications_silent (l : List Event) (h : ∀ e ∈ l, e.silent = true) :
    publications l = [] := by
  induction l with
  | nil => rfl
  | cons e rest ih =>
    have he := h e (List.mem_cons_self _ _)
    have hr := ih fun x hx => h x (List.mem_cons_of_mem _ hx)
    cases e <;> simp [Event.silent] at he <;> simpa [publications] using hr

theorem mem_notifiedKeys (l : List Event) (key : String) :
    key ∈ notifiedKeys l ↔ ∃ run, Event.notification key run ∈ l := by
  unfold notifiedKeys
  rw [List.mem_filterMap]
  constructor
  · rintro ⟨e, he, hf⟩
    cases e <;> simp at hf
    subst hf
    exact ⟨_, he⟩
  · rintro ⟨run, h⟩
    exact ⟨_, h, rfl⟩

theorem mem_derivedKeys (l : List Event) (key : String) :
    key ∈ derivedKeys l ↔ Event.deriveKey key ∈ l := by
  unfold derivedKeys
  rw [List.mem_filterMap]
  constructor
  · rintro ⟨e, he, hf⟩
    cases e <;> simp at hf
    subst hf
    exact he
  · intro h
    exact ⟨_, h, rfl⟩

theorem mem_publications (l : List Event) (pub : Publication) :
    pub ∈ publications l ↔ Event.publish pub.address pub.validUntil pub.time ∈ l := by
  unfold publications
  rw [List.mem_filterMap]
  constructor
  · rintro ⟨e, he, hf⟩
    cases e <;> simp at hf
    subst hf
    exact he
  · intro h
    exact ⟨_, h, rfl⟩

theorem silent_of_mem_cycle (e : Event) (id : String) (t v p : Time) (key line : String)
    (mid tail : List Event)
    (hmid : ∀ e ∈ mid, e.silent = true) (htail : ∀ e ∈ tail, e.silent = true)
    (h : e ∈ [.acquired id t, .publish id v p, .deriveKey key] ++ mid ++
      [.log line, .serve id] ++ tail ++ [.serverShutdown, .onionClose id]) :
    e = .acquired id t ∨ e = .publish id v p ∨ e = .deriveKey key ∨ e = .serve id ∨
      e = .serverShutdown ∨ e = .onionClose id ∨ e.silent = true := by
  simp only [List.mem_append, List.mem_cons, List.mem_singleton, List.not_mem_nil,
    or_false] at h
  rcases h with ((((h | h | h) | h) | h | h) | h) | h | h
  · exact Or.inl h
  · exact Or.inr (Or.inl h)
  · exact Or.inr (Or.inr (Or.inl h))
  · exact Or.inr (Or.inr (Or.inr (Or.inr (Or.inr (Or.inr (hmid e h))))))
  · exact Or.inr (Or.inr (Or.inr (Or.inr (Or.inr (Or.inr (by rw [h]; rfl))))))
  · exact Or.inr (Or.inr (Or.inr (Or.inl h)))
  · exact Or.inr (Or.inr (Or.inr (Or.inr (Or.inr (Or.inr (htail e h))))))
  · exact Or.inr (Or.inr (Or.inr (Or.inr (Or.inl h))))
  · exact Or.inr (Or.inr (Or.inr (Or.inr (Or.inr (Or.inl h)))))

theorem scheduleInv_silent (d : Duration) (w : World) (l : List Event) (dt : Nat)
    (hl : ∀ e ∈ l, e.silent = true ∨ (∃ err, e = .listenFailed err) ∨ ∃ x, e = .sleep x)
    (h : scheduleInv d w) :
    scheduleInv d { w with now := w.now + dt, trace := w.trace ++ l } := by
  have hp : publications l = [] := by
    unfold publications
    rw [List.filterMap_eq_nil_iff]
    intro e he
    rcases hl e he with h1 | ⟨err, h1⟩ | ⟨x, h1⟩
    · cases e <;> simp [Event.silent] at h1 <;> rfl
    · rw [h1]
    · rw [h1]
  obtain ⟨hA, hD, hB, hC⟩ := h
  refine ⟨?_, ?_, ?_, ?_⟩
  · intro id t hmem
    simp only [List.mem_append] at hmem ⊢
    rcases hmem with hmem | hmem
    · obtain ⟨p, hp1, hp2⟩ := hA id t hmem
      exact ⟨p, hp1, Or.inl hp2⟩
    · rcases hl _ hmem with h1 | ⟨err, h1⟩ | ⟨x, h1⟩
      · simp [Event.silent] at h1
      · cases h1
      · cases h1
  · intro pub hpub
    simp only [publications_append, hp, List.append_nil] at hpub
    obtain ⟨t, h1, h2, h3⟩ := hD pub hpub
    exact ⟨t, List.mem_append_left _ h1, h2, h3⟩
  · simpa only [publications_append, hp, List.append_nil] using hB
  · intro pub hpub
    simp only [publications_append, hp, List.append_nil] at hpub
    exact le_add_of_le_of_nonneg (hC pub hpub) (Int.ofNat_nonneg dt)

theorem publications_cycle (id : String) (t v p : Time) (key line : String)
    (mid tail : List Event)
    (hmid : ∀ e ∈ mid, e.silent = true) (htail : ∀ e ∈ tail, e.silent = true) :
    publications ([.acquired id t, .publish id v p, .deriveKey key] ++ mid ++
      [.log line, .serve id] ++ tail ++ [.serverShutdown, .onionClose id]) = [⟨id, v, p⟩] := by
  simp only [publications_append, publications_silent mid hmid, publications_silent tail htail]
  rfl

theorem scheduleInv_extend (d : Duration) (w : World) (l : List Event) (id addr : String)
    (t p tEnd v : Time)
    (hpub : publications l = [⟨id, t + d, p⟩])
    (hacq : Event.acquired id t ∈ l) (hpb : Event.publish id (t + d) p ∈ l)
    (honly : ∀ id2 t2, Event.acquired id2 t2 ∈ l → id2 = id ∧ t2 = t)
    (htp : t ≤ p) (hwp : w.now ≤ p) (hEnd : t + d ≤ tEnd) (hNow : w.now ≤ tEnd)
    (h : scheduleInv d w) :
    scheduleInv d ⟨tEnd, addr, v, w.trace ++ l⟩ := by
  obtain ⟨hA, hD, hB, hC⟩ := h
  have hmemp : ∀ pub, pub ∈ publications (w.trace ++ l) →
      pub ∈ publications w.trace ∨ pub = ⟨id, t + d, p⟩ := by
    intro pub hp
    rw [publications_append, hpub, List.mem_append, List.mem_singleton] at hp
    exact hp
  refine ⟨?_, ?_, ?_, ?_⟩
  · intro id2 t2 hmem
    rcases List.mem_append.mp hmem with hmem | hmem
    · obtain ⟨q, hq1, hq2⟩ := hA id2 t2 hmem
      exact ⟨q, hq1, List.mem_append_left _ hq2⟩
    · obtain ⟨h2, h3⟩ := honly id2 t2 hmem
      subst h2 h3
      exact ⟨p, htp, List.mem_append_right _ hpb⟩
  · intro pub hp
    rcases hmemp pub hp with hp | hp
    · obtain ⟨t1, h1, h2, h3⟩ := hD pub hp
      exact ⟨t1, List.mem_append_left _ h1, h2, h3⟩
    · subst hp
      exact ⟨t, List.mem_append_right _ hacq, rfl, htp⟩
  · have e : publications (w.trace ++ l) = publications w.trace ++ [⟨id, t + d, p⟩] := by
      rw [publications_append, hpub]
    show List.Pairwise _ (publications (w.trace ++ l))
    rw [e, List.pairwise_append]
    refine ⟨hB, List.pairwise_singleton _ _, ?_⟩
    intro a ha b hb
    rw [List.mem_singleton] at hb
    subst hb
    exact le_trans (hC a ha) hwp
  · intro pub hp
    rcases hmemp pub hp with hp | hp
    · exact le_trans (hC pub hp) hNow
    · subst hp
      exact hEnd

theorem scheduleInv_cycle (d : Duration) (w : World) (id : String) (le pe : Nat)
    (key line : String) (mid tail : List Event)
    (hmid : ∀ e ∈ mid, e.silent = true) (htail : ∀ e ∈ tail, e.silent = true)
    (tEnd : Time) (hEnd : w.now + le + d ≤ tEnd) (hNow : w.now ≤ tEnd)
    (h : scheduleInv d w) :
    scheduleInv d ⟨tEnd, id, w.now + le + d,
      w.trace ++ ([.acquired id (w.now + le), .publish id (w.now + le + d) (w.now + le + pe),
        .deriveKey key] ++ mid ++ [.log line, .serve id] ++ tail ++
        [.serverShutdown, .onionClose id])⟩ := by
  have hle : (w.now + le : Int) ≤ w.now + le + pe := le_add_of_nonneg_right (Int.ofNat_nonneg pe)
  have hle2 : (w.now : Int) ≤ w.now + le + pe :=
    le_trans (le_add_of_nonneg_right (Int.ofNat_nonneg le)) hle
  apply scheduleInv_extend d w _ id id (w.now + le) (w.now + le + pe) tEnd _
    (publications_cycle id _ _ _ key line mid tail hmid htail) (by simp) (by simp) _
    hle hle2 hEnd hNow h
  intro id2 t2 hmem
  rcases silent_of_mem_cycle _ id _ _ _ key line mid tail hmid htail hmem with
    h1 | h1 | h1 | h1 | h1 | h1 | h1
  · injection h1 with h2 h3
    exact ⟨h2, h3⟩
  all_goals simp [Event.silent] at h1

theorem cycle_end_bound (now d : Int) (le pe de dn se td : Nat) :
    now + le + d ≤ now + le + pe + de + dn + se + max d 0 + td ∧
    now ≤ now + le + pe + de + dn + se + max d 0 + td := by
  have h1 : d ≤ max d 0 := le_max_left _ _
  have h2 : (0 : Int) ≤ max d 0 := le_max_right _ _
  constructor <;> omega

theorem serviceIteration_schedule (lib : Lib) (env : MainEnv) (config : Config) (k : Nat)
    (w : World) (h : scheduleInv config.duration w) :
    scheduleInv config.duration (serviceIteration lib env config k w) := by
  cases hl : (env.cycle k).listen with
  | error err =>
    rw [serviceIteration_failed lib env config k w err hl]
    have := scheduleInv_silent config.duration w [.listenFailed err,
          .log ("Service cycle failed: " ++ ("onion creation failed: " ++ err) ++
            " (retrying in 5 seconds)"),
          .sleep (5 * second)] ((env.cycle k).listenElapsed + 5000000000)
      (by
        intro e he
        simp only [List.mem_cons, List.mem_singleton, List.not_mem_nil, or_false] at he
        rcases he with he | he | he
        · exact Or.inr (Or.inl ⟨_, he⟩)
        · left; rw [he]; rfl
        · exact Or.inr (Or.inr ⟨_, he⟩)) h
    simpa [add_assoc] using this
  | ok id =>
    obtain ⟨mid, tail, dn, he, hmid, htail, _⟩ :=
      serviceIteration_acquired lib env config k w id hl
    rw [he]
    exact scheduleInv_cycle config.duration w id _ _ _ _ mid tail hmid htail _
      (cycle_end_bound _ _ _ _ _ _ _ _).1 (cycle_end_bound _ _ _ _ _ _ _ _).2 h

theorem scheduleInv_start (d : Duration) (t0 : Time) : scheduleInv d (World.start t0) := by
  refine ⟨?_, ?_, ?_, ?_⟩ <;> simp [World.start, publications]

theorem mainLoop_schedule (lib : Lib) (env : MainEnv) (config : Config) (t0 : Time)
    (fuel : Nat) :
    scheduleInv config.duration (mainLoop lib env config fuel 0 (World.start t0)).1 := by
  apply mainLoop_invariant lib env config (scheduleInv config.duration)
  · intro k w h
    exact serviceIteration_schedule lib env config k w h
  · intro w line h
    have := scheduleInv_silent config.duration w [.log line] 0
      (by intro e he; left; rw [List.mem_singleton.mp he]; rfl) h
    simpa [World.emit] using this
  · exact scheduleInv_start _ _

/-- C1: a call of `runServiceCycle` that acquires its endpoint at instant `t`
(the value of `time.Now()` right after `Listen` returns) stores `t + d` in
`currentValidUntil`, which is what the `/api/onion` handler formats; and in
every run of the main loop each acquisition at `t` is followed by the
publication of `t + d`, and a later publication is never written before the
`validUntil` of an earlier one.  This holds for every duration `d`, the
positive ones of the claim included. -/
theorem validUntil_published_and_respected (lib : Lib) (env : MainEnv) (config : Config)
    (t0 : Time) (fuel : Nat) :
    (∀ (ctx : Context) (cenv : CycleEnv) (w : World) (id : String), cenv.listen = .ok id →
      (runServiceCycle lib ctx cenv config w).1.currentValidUntil =
        w.now + cenv.listenElapsed + config.duration ∧
      setupAPI.handler lib (runServiceCycle lib ctx cenv config w).1 =
        [("onionAddress", "http://" ++ id ++ ".onion"),
         ("validUntil", lib.formatTime (w.now + cenv.listenElapsed + config.duration))]) ∧
    (∀ id t, Event.acquired id t ∈ (mainLoop lib env config fuel 0 (World.start t0)).1.trace →
      ∃ p, t ≤ p ∧ Event.publish id (t + config.duration) p ∈
        (mainLoop lib env config fuel 0 (World.start t0)).1.trace) ∧
    (∀ pub ∈ publications (mainLoop lib env config fuel 0 (World.start t0)).1.trace,
      ∃ t, Event.acquired pub.address t ∈
          (mainLoop lib env config fuel 0 (World.start t0)).1.trace ∧
        pub.validUntil = t + config.duration ∧ t ≤ pub.time) ∧
    List.Pairwise (fun first later => first.validUntil ≤ later.time)
      (publications (mainLoop lib env config fuel 0 (World.start t0)).1.trace) := by
  obtain ⟨hA, hD, hB, _⟩ := mainLoop_schedule lib env config t0 fuel
  refine ⟨?_, hA, hD, hB⟩
  intro ctx cenv w id hl
  obtain ⟨mid, tail, dn, h1, _⟩ := runServiceCycle_acquired lib ctx cenv config w id hl
  rw [h1]
  exact ⟨rfl, rfl⟩

theorem serviceIteration_keys (lib : Lib) (env : MainEnv) (config : Config) (k : Nat)
    (w : World)
    (h : (∀ key ∈ derivedKeys w.trace, key = deriveKey lib.kdf config.password) ∧
      (∀ key ∈ notifiedKeys w.trace, key = deriveKey lib.kdf config.password)) :
    (∀ key ∈ derivedKeys (serviceIteration lib env config k w).trace,
      key = deriveKey lib.kdf config.password) ∧
    (∀ key ∈ notifiedKeys (serviceIteration lib env config k w).trace,
      key = deriveKey lib.kdf config.password) := by
  cases hl : (env.cycle k).listen with
  | error err =>
    rw [serviceIteration_failed lib env config k w err hl]
    simp only [derivedKeys_append, notifiedKeys_append, List.mem_append]
    constructor
    · intro key hk
      rcases hk with hk | hk
      · exact h.1 key hk
      · simp [derivedKeys] at hk
    · intro key hk
      rcases hk with hk | hk
      · exact h.2 key hk
      · simp [notifiedKeys] at hk
  | ok id =>
    obtain ⟨mid, tail, dn, he, hmid, htail, hnk, hlogs⟩ :=
      serviceIteration_acquired lib env config k w id hl
    rw [he]
    simp only [derivedKeys_append, notifiedKeys_append, List.mem_append]
    constructor
    · intro key hk
      rcases hk with hk | hk
      · exact h.1 key hk
      · simp only [derivedKeys_silent mid hmid, derivedKeys_silent tail htail] at hk
        simp [derivedKeys] at hk
        exact hk
    · intro key hk
      rcases hk with hk | hk
      · exact h.2 key hk
      · rcases hk with (((hk | hk) | hk) | hk) | hk
        · simp [notifiedKeys] at hk
        · obtain ⟨run, hr⟩ := (mem_notifiedKeys mid key).mp hk
          exact hnk key run hr
        · simp [notifiedKeys] at hk
        · obtain ⟨run, hr⟩ := (mem_notifiedKeys tail key).mp hk
          obtain ⟨l, hl2⟩ := hlogs _ hr
          cases hl2
        · simp [notifiedKeys] at hk

/-- C10 as stated fails: in a run of two rotations, with endpoints `aaa` and
`bbb`, the key derived in the second is the key derived in the first. -/
theorem rotation_derives_same_key :
    derivedKeys (mainLoop sampleLib sampleMainEnv sampleConfig 2 0 (World.start 0)).1.trace =
      ["92939495969798999a9b9c9d9e9fa0a1a2a3a4a5a6a7a8a9aaabacadaeafb0b1",
       "92939495969798999a9b9c9d9e9fa0a1a2a3a4a5a6a7a8a9aaabacadaeafb0b1"] ∧
    (publications (mainLoop sampleLib sampleMainEnv sampleConfig 2 0
      (World.start 0)).1.trace).map (fun pub => pub.address) = ["aaa", "bbb"] := by
  constructor <;> rfl

/-- C10, amended: every rotation derives its key again from the unchanged
password and the static salt, so every key derived in a run, and every key
handed to the notification, is the same string `deriveKey password`. -/
theorem every_rotation_derives_password_key (lib : Lib) (env : MainEnv) (config : Config)
    (t0 : Time) (fuel : Nat) :
    (∀ key ∈ derivedKeys (mainLoop lib env config fuel 0 (World.start t0)).1.trace,
      key = deriveKey lib.kdf config.password) ∧
    (∀ key ∈ notifiedKeys (mainLoop lib env config fuel 0 (World.start t0)).1.trace,
      key = deriveKey lib.kdf config.password) := by
  apply mainLoop_invariant lib env config (fun w =>
    (∀ key ∈ derivedKeys w.trace, key = deriveKey lib.kdf config.password) ∧
    (∀ key ∈ notifiedKeys w.trace, key = deriveKey lib.kdf config.password))
  · intro k w h
    exact serviceIteration_keys lib env config k w h
  · intro w line h
    simpa [World.emit, derivedKeys_append, notifiedKeys_append, derivedKeys, notifiedKeys]
      using h
  · simp [World.start, derivedKeys, notifiedKeys]

/-! ## Failure of Listen -/

theorem shutdownReady_mono (env : MainEnv) (a b : Time) (hab : a ≤ b)
    (h : shutdownReady env b = false) : shutdownReady env a = false := by
  unfold shutdownReady at h ⊢
  cases hs : env.shutdownAt with
  | none => rfl
  | some s =>
    rw [hs] at h
    simp only [decide_eq_false_iff_not, not_le] at h ⊢
    exact lt_of_le_of_lt hab h

/-- C8: when `Listen` fails, `runServiceCycle` returns the wrapped error having
done nothing but the failed request: the published pair is untouched and no
key is derived, no notification sent, no server started.  The main loop then
logs, sleeps five seconds and, unless a shutdown signal has arrived by then,
goes on to iteration `k + 1`, which calls `runServiceCycle` again. -/
theorem listen_failure_is_retried (lib : Lib) (env : MainEnv) (config : Config) (k fuel : Nat)
    (w : World) (err : String) (hl : (env.cycle k).listen = .error err)
    (hs : shutdownReady env (w.now + (env.cycle k).listenElapsed + 5 * second) = false) :
    (∀ ctx, runServiceCycle lib ctx (env.cycle k) config w =
      (⟨w.now + (env.cycle k).listenElapsed, w.currentOnionAddress, w.currentValidUntil,
        w.trace ++ [.listenFailed err]⟩, some ("onion creation failed: " ++ err))) ∧
    mainLoop lib env config (fuel + 2) k w =
      mainLoop lib env config fuel (k + 2)
        (serviceIteration lib env config (k + 1)
          ⟨w.now + (env.cycle k).listenElapsed + 5 * second,
            w.currentOnionAddress, w.currentValidUntil,
            w.trace ++ [.listenFailed err,
              .log ("Service cycle failed: " ++ ("onion creation failed: " ++ err) ++
                " (retrying in 5 seconds)"),
              .sleep (5 * second)]⟩) := by
  constructor
  · intro ctx
    exact runServiceCycle_failed lib ctx (env.cycle k) config w err hl
  · have h0 : shutdownReady env w.now = false := by
      apply shutdownReady_mono env _ _ _ hs
      have h1 : (0 : Int) ≤ ((env.cycle k).listenElapsed : Int) := Int.ofNat_nonneg _
      have h2 : (0 : Int) ≤ 5 * second := by decide
      exact le_trans (le_add_of_nonneg_right h1) (le_add_of_nonneg_right h2)
    have e5 : (5 * second : Int) = 5000000000 := by decide
    rw [e5] at hs
    rw [mainLoop]
    simp only [h0, Bool.false_eq_true, if_false]
    rw [serviceIteration_failed lib env config k w err hl, mainLoop]
    simp only [hs, Bool.false_eq_true, if_false]
    rw [e5]

theorem listen_failure_is_retried_witness :
    (mainLoop sampleLib retryMainEnv sampleConfig 2 0 (World.start 0)).1.trace.take 4 =
      [.listenFailed "control port closed",
       .log "Service cycle failed: onion creation failed: control port closed (retrying in 5 seconds)",
       .sleep 5000000000, .acquired "bbb" 5000000002] := by
  rw [(listen_failure_is_retried sampleLib retryMainEnv sampleConfig 0 0 (World.start 0)
    "control port closed" rfl rfl).2]
  rfl

/-! ## Failure of the notification -/

theorem serve_mem_cycle (l : List Event) (a b c : Event) (mid tail : List Event) (line : Event)
    (id : String) (x y : Event) :
    Event.serve id ∈ l ++ ([a, b, c] ++ mid ++ [line, .serve id] ++ tail ++ [x, y]) := by
  simp

theorem publications_runServiceCycle (lib : Lib) (ctx : Context) (cenv : CycleEnv)
    (config : Config) (w : World) (id : String) (hl : cenv.listen = .ok id) :
    publications (runServiceCycle lib ctx cenv config w).1.trace =
      publications w.trace ++ [⟨id, w.now + cenv.listenElapsed + config.duration,
        w.now + cenv.listenElapsed + cenv.publishElapsed⟩] ∧
    Event.serve id ∈ (runServiceCycle lib ctx cenv config w).1.trace ∧
    (runServiceCycle lib ctx cenv config w).1.currentOnionAddress = id ∧
    (runServiceCycle lib ctx cenv config w).1.currentValidUntil =
      w.now + cenv.listenElapsed + config.duration := by
  obtain ⟨mid, tail, dn, h1, _, hmid, htail, _⟩ :=
    runServiceCycle_acquired lib ctx cenv config w id hl
  rw [h1]
  refine ⟨?_, serve_mem_cycle _ _ _ _ _ _ _ _ _ _, rfl, rfl⟩
  show publications (w.trace ++ _) = _
  rw [publications_append, publications_cycle id _ _ _ _ _ mid tail hmid htail]

theorem runServiceCycle_background_result (lib : Lib) (cenv : CycleEnv) (config : Config)
    (w : World) (id : String) (hl : cenv.listen = .ok id) :
    (runServiceCycle lib .background cenv config w).2 = none := by
  obtain ⟨mid, tail, dn, _, h2, _⟩ := runServiceCycle_acquired lib .background cenv config w id hl
  rw [h2, selectWait_background]

theorem runServiceCycle_notify_irrelevant (lib : Lib) (ctx : Context) (cenv : CycleEnv)
    (config : Config) (w : World) (id : String) (nenv : NotifyEnv) (hl : cenv.listen = .ok id) :
    (runServiceCycle lib ctx { cenv with notify := nenv } config w).2 =
      (runServiceCycle lib ctx cenv config w).2 ∧
    (runServiceCycle lib ctx { cenv with notify := nenv } config w).1.now =
      (runServiceCycle lib ctx cenv config w).1.now := by
  obtain ⟨mid, tail, dn, h1, h2, _, _, _, _, _, hdn⟩ :=
    runServiceCycle_acquired lib ctx cenv config w id hl
  obtain ⟨mid2, tail2, dn2, k1, k2, _, _, _, _, _, kdn⟩ :=
    runServiceCycle_acquired lib ctx { cenv with notify := nenv } config w id hl
  have e : dn2 = dn := by rw [hdn, kdn]
  subst e
  rw [h1, h2, k1, k2]
  exact ⟨rfl, rfl⟩

/-- C4: with `context.Background()`, as `main` calls it, a cycle that acquired its
endpoint returns `nil`, publishes the same pair and serves the endpoint,
whatever `sendNotification` returns, however long it takes and whether mail is
enabled at all; an error of `sendNotification` only adds a log line.  And for
any context, replacing the notification outcome alone changes neither the
returned value nor the instant of return. -/
theorem notification_failure_is_not_fatal (lib : Lib) (cenv : CycleEnv) (config : Config)
    (w : World) (id : String) (nenv : NotifyEnv) (elapsed : Nat) (mail : Bool)
    (hl : cenv.listen = .ok id) (hm : config.enableMail = true) :
    (runServiceCycle lib .background cenv config w).2 = none ∧
    (runServiceCycle lib .background { cenv with notify := nenv, notifyElapsed := elapsed }
      { config with enableMail := mail } w).2 = none ∧
    publications (runServiceCycle lib .background cenv config w).1.trace =
      publications (runServiceCycle lib .background
        { cenv with notify := nenv, notifyElapsed := elapsed }
        { config with enableMail := mail } w).1.trace ∧
    (runServiceCycle lib .background cenv config w).1.currentOnionAddress = id ∧
    (runServiceCycle lib .background cenv config w).1.currentValidUntil =
      w.now + cenv.listenElapsed + config.duration ∧
    (runServiceCycle lib .background { cenv with notify := nenv, notifyElapsed := elapsed }
      { config with enableMail := mail } w).1.currentOnionAddress = id ∧
    (runServiceCycle lib .background { cenv with notify := nenv, notifyElapsed := elapsed }
      { config with enableMail := mail } w).1.currentValidUntil =
      w.now + cenv.listenElapsed + config.duration ∧
    Event.serve id ∈ (runServiceCycle lib .background cenv config w).1.trace ∧
    Event.serve id ∈ (runServiceCycle lib .background
      { cenv with notify := nenv, notifyElapsed := elapsed }
      { config with enableMail := mail } w).1.trace ∧
    (∀ err, (sendNotification lib cenv.notify id (toString config.port)
        (deriveKey lib.kdf config.password) (w.now + cenv.listenElapsed + config.duration)
        config.duration).result = some err →
      Event.log ("Failed to send notifications: " ++ err) ∈
        (runServiceCycle lib .background cenv config w).1.trace) ∧
    (∀ ctx, (runServiceCycle lib ctx { cenv with notify := nenv } config w).2 =
        (runServiceCycle lib ctx cenv config w).2 ∧
      (runServiceCycle lib ctx { cenv with notify := nenv } config w).1.now =
        (runServiceCycle lib ctx cenv config w).1.now) := by
  have a := publications_runServiceCycle lib .background cenv config w id hl
  have b := publications_runServiceCycle lib .background
    { cenv with notify := nenv, notifyElapsed := elapsed } { config with enableMail := mail } w id hl
  refine ⟨runServiceCycle_background_result lib cenv config w id hl,
    runServiceCycle_background_result lib _ _ w id hl, ?_, a.2.2.1, a.2.2.2, b.2.2.1, b.2.2.2,
    a.2.1, b.2.1, ?_, fun ctx => runServiceCycle_notify_irrelevant lib ctx cenv config w id nenv hl⟩
  · rw [a.1, b.1]
  · intro err herr
    simp only [runServiceCycle, hl, notifyStage, hm, if_true, herr, World.emit, World.advance,
      waitStage, selectWait_background]
    simp

theorem notification_failure_is_not_fatal_witness :
    (runServiceCycle sampleLib .background
      { sampleCycle "aaa" with notify := unreachableRelay }
      { sampleConfig with enableMail := true } (World.start 0)).2 = none ∧
    Event.log "Failed to send notifications: SMTP connection failed: connection refused" ∈
      (runServiceCycle sampleLib .background
        { sampleCycle "aaa" with notify := unreachableRelay }
        { sampleConfig with enableMail := true } (World.start 0)).1.trace :=
  have h := notification_failure_is_not_fatal sampleLib
    { sampleCycle "aaa" with notify := unreachableRelay }
    { sampleConfig with enableMail := true } (World.start 0) "aaa" sampleNotifyEnv 0 false rfl rfl
  ⟨h.1, h.2.2.2.2.2.2.2.2.2.1 "SMTP connection failed: connection refused" (by rfl)⟩

/-! ## The shutdown signal -/

theorem serviceIteration_of_acquired (lib : Lib) (env : MainEnv) (config : Config) (k : Nat)
    (w : World) (id : String) (hl : (env.cycle k).listen = .ok id) :
    serviceIteration lib env config k w =
      (runServiceCycle lib .background (env.cycle k) config w).1 := by
  have h := runServiceCycle_background_result lib (env.cycle k) config w id hl
  unfold serviceIteration
  rw [show runServiceCycle lib .background (env.cycle k) config w =
    ((runServiceCycle lib .background (env.cycle k) config w).1,
     (runServiceCycle lib .background (env.cycle k) config w).2) from rfl, h]

/-- C7, what the code does: `main` hands `context.Background()` to
`runServiceCycle`, so a shutdown signal that arrives at `s`, after the loop
tested its channel and before the cycle returned, does not wake the `select`:
the call returns `nil` by the timer case, not before the full duration has
passed since the endpoint was acquired, and only then does the loop see
the signal and return without another cycle. -/
theorem shutdown_signal_does_not_wake_wait (lib : Lib) (env : MainEnv) (config : Config)
    (k fuel : Nat) (w : World) (id : String) (s : Time)
    (hl : (env.cycle k).listen = .ok id) (hsig : env.shutdownAt = some s)
    (hafter : w.now < s)
    (hbefore : s ≤ (runServiceCycle lib .background (env.cycle k) config w).1.now) :
    (runServiceCycle lib .background (env.cycle k) config w).2 = none ∧
    Event.log "Rotating to new onion address..." ∈
      (runServiceCycle lib .background (env.cycle k) config w).1.trace ∧
    w.now + (env.cycle k).listenElapsed + config.duration ≤
      (runServiceCycle lib .background (env.cycle k) config w).1.now ∧
    mainLoop lib env config (fuel + 2) k w =
      ((runServiceCycle lib .background (env.cycle k) config w).1.emit
        (.log "Shutting down gracefully..."), true) := by
  have hres := runServiceCycle_background_result lib (env.cycle k) config w id hl
  refine ⟨hres, ?_, ?_, ?_⟩
  · simp only [runServiceCycle, hl, waitStage, selectWait_background, World.emit, World.advance]
    simp
  · obtain ⟨mid, tail, dn, h1, _⟩ :=
      runServiceCycle_acquired lib .background (env.cycle k) config w id hl
    rw [h1, selectWait_background]
    exact (cycle_end_bound _ _ _ _ _ _ _ _).1
  · have h0 : shutdownReady env w.now = false := by
      simp only [shutdownReady, hsig, decide_eq_false_iff_not, not_le]
      exact hafter
    have h1 : shutdownReady env (runServiceCycle lib .background (env.cycle k) config w).1.now
        = true := by
      simp only [shutdownReady, hsig, decide_eq_true_eq]
      exact hbefore
    rw [mainLoop]
    simp only [h0, Bool.false_eq_true, if_false]
    rw [serviceIteration_of_acquired lib env config k w id hl, mainLoop]
    simp only [h1, if_true]

theorem shutdown_signal_does_not_wake_wait_witness :
    (runServiceCycle sampleLib .background (signalledMainEnv.cycle 0) sampleConfig
      (World.start 0)).2 = none ∧
    3 * second + 7 * second ≤ (runServiceCycle sampleLib .background (signalledMainEnv.cycle 0)
      sampleConfig (World.start 0)).1.now ∧
    (mainLoop sampleLib signalledMainEnv sampleConfig 2 0 (World.start 0)).2 = true :=
  have h := shutdown_signal_does_not_wake_wait sampleLib signalledMainEnv sampleConfig 0 0
    (World.start 0) "aaa" (3 * second) rfl rfl (by decide) (by decide)
  ⟨h.1, by decide, by rw [h.2.2.2]⟩


end Eob
